import Mathlib

/-!
# Verification of the GSF `FilterExpressionParser`

A shallow embedding of
`Source/Libraries/TimeSeriesPlatformLibrary/Transport/FilterExpressions/FilterExpressionParser.cpp`
(the filter-expression engine of the GSF time-series platform), together with
theorems settling the specification claims about it.

Modelling conventions:
* GUIDs are naturals; the all-zeros GUID (`Empty::Guid`) is `0`.
* `std::unordered_set<guid>` is a duplicate-free `List Nat` (insertion prepends).
* Machine doubles appear only in `exitLiteralValue`'s INTEGER branch; a
  correctly rounded `stod` of a digit string is `roundDouble` (round to
  nearest, 53-bit significand, ties to even).
* `std::sort` guarantees only a comparator-sorted permutation, so the
  per-statement sort is modelled relationally (`sortValid`), and the executor
  is parametrised by a sort implementation.
* The external `ExpressionTree::Evaluate` (expression reduction, a different
  translation unit) is a function parameter of each statement's tree.
-/

namespace GSF

/-! ## Case-insensitive string helpers

`IsEqual` and `StartsWith` from the GSF common library default to
case-insensitive comparison (the spec: keywords, function names, table and
column names match case-insensitively; comparisons that must be
case-sensitive pass an explicit `false` in the source). Modelled from the
spec: the common library is outside this translation unit. -/

def upperChar (c : Char) : Char :=
  if 'a' ≤ c ∧ c ≤ 'z' then Char.ofNat (c.toNat - 32) else c

def upperAscii (s : String) : String := String.mk (s.data.map upperChar)

def isEqualCI (a b : String) : Bool := upperAscii a = upperAscii b

def listStartsWith : List Char → List Char → Bool
  | _, [] => true
  | [], _ :: _ => false
  | c :: cs, d :: ds => c = d && listStartsWith cs ds

def startsWithCI (s p : String) : Bool :=
  listStartsWith (upperAscii s).data (upperAscii p).data

/-! ## Data model (external collaborators, spec section 3.1) -/

inductive DataType
  | string | boolean | dateTime | single | double | decimal | guid
  | int8 | int16 | int32 | int64 | uint8 | uint16 | uint32 | uint64
deriving DecidableEq

/-- A cell payload, tagged by its `DataType`. `Single`/`Double`/`Decimal`
payloads are rationals (every finite machine float is a rational; NaNs, which
would break the order-by comparator's strict weak ordering, are outside the
model). `DateTime` is a `time_t`, signed integers are `Int`, unsigned are
`Nat`, GUIDs compare bytewise, i.e. as their 128-bit value. -/
inductive CellValue
  | str (s : String)
  | boolean (b : Bool)
  | dateTime (t : Int)
  | single (x : ℚ)
  | double (x : ℚ)
  | decimal (x : ℚ)
  | guid (g : Nat)
  | int8 (n : Int)
  | int16 (n : Int)
  | int32 (n : Int)
  | int64 (n : Int)
  | uint8 (n : Nat)
  | uint16 (n : Nat)
  | uint32 (n : Nat)
  | uint64 (n : Nat)
deriving DecidableEq

/-- A `DataRow`: a tuple of nullable cells, accessed by column index. -/
structure DataRow where
  cells : List (Option CellValue)
deriving DecidableEq

def DataRow.cell (r : DataRow) (i : Nat) : Option CellValue := r.cells.getD i none

/-- Typed nullable accessors (`row->ValueAsString(i)`, `row->ValueAsGuid(i)`, ...):
the optional payload of the cell when it holds that type. -/
def valueAsString : Option CellValue → Option String
  | some (.str s) => some s
  | _ => none

def valueAsBooleanCell : Option CellValue → Option Bool
  | some (.boolean b) => some b
  | _ => none

def valueAsDateTime : Option CellValue → Option Int
  | some (.dateTime t) => some t
  | _ => none

def valueAsSingle : Option CellValue → Option ℚ
  | some (.single x) => some x
  | _ => none

def valueAsDouble : Option CellValue → Option ℚ
  | some (.double x) => some x
  | _ => none

def valueAsDecimal : Option CellValue → Option ℚ
  | some (.decimal x) => some x
  | _ => none

def valueAsGuid : Option CellValue → Option Nat
  | some (.guid g) => some g
  | _ => none

def valueAsInt8 : Option CellValue → Option Int
  | some (.int8 n) => some n
  | _ => none

def valueAsInt16 : Option CellValue → Option Int
  | some (.int16 n) => some n
  | _ => none

def valueAsInt32 : Option CellValue → Option Int
  | some (.int32 n) => some n
  | _ => none

def valueAsInt64 : Option CellValue → Option Int
  | some (.int64 n) => some n
  | _ => none

def valueAsUInt8 : Option CellValue → Option Nat
  | some (.uint8 n) => some n
  | _ => none

def valueAsUInt16 : Option CellValue → Option Nat
  | some (.uint16 n) => some n
  | _ => none

def valueAsUInt32 : Option CellValue → Option Nat
  | some (.uint32 n) => some n
  | _ => none

def valueAsUInt64 : Option CellValue → Option Nat
  | some (.uint64 n) => some n
  | _ => none

structure DataColumn where
  name : String
  index : Nat
  dataType : DataType
deriving DecidableEq

structure DataTable where
  name : String
  columns : List DataColumn
  rows : List (Option DataRow)
deriving DecidableEq

/-- `table->Column(name)`: case-insensitive lookup (spec section 3.1). -/
def DataTable.column (t : DataTable) (columnName : String) : Option DataColumn :=
  t.columns.find? (fun c => isEqualCI c.name columnName)

structure DataSet where
  tables : List DataTable
deriving DecidableEq

/-- `dataSet->Table(name)`: case-insensitive lookup (spec section 3.1). -/
def DataSet.table (ds : DataSet) (tableName : String) : Option DataTable :=
  ds.tables.find? (fun t => isEqualCI t.name tableName)

structure MeasurementTableIDFields where
  signalIDFieldName : String
  measurementKeyFieldName : String
  pointTagFieldName : String
deriving DecidableEq

/-! ## Parser state (the accumulator-bearing parts of `FilterExpressionParser`) -/

structure ParserState where
  dataSet : Option DataSet
  trackFilteredSignalIDs : Bool
  trackFilteredRows : Bool
  primaryMeasurementTableName : String
  /-- `m_measurementTableIDFields`: exact-key map tableName to ID fields. -/
  measurementTableIDFields : List (String × MeasurementTableIDFields)
  /-- `m_filteredSignalIDSet` (`std::unordered_set<guid>`), as the list of its
  elements, newest first. -/
  filteredSignalIDSet : List Nat
  filteredSignalIDs : List Nat
  filteredRows : List DataRow
deriving DecidableEq

/-- `GetMeasurementTableIDFields` (source lines 198-205): exact-string map lookup. -/
def getMeasurementTableIDFields (st : ParserState) (tableName : String) :
    Option MeasurementTableIDFields :=
  (st.measurementTableIDFields.find? (fun p => p.1 = tableName)).map Prod.snd

/-! ## `GenerateExpressionTree` / `Select` wrapping (source lines 1094-1098, 1115-1119)

Both convenience entry points pass the filter text through the same
conditional wrap before handing it to the parser. Note the source spells the
added keyword `"FITLER "` even though the guard tests for `"FILTER "`. -/

def wrapFilterExpression (tableName filterExpression : String) : String :=
  if startsWithCI filterExpression "FILTER " then filterExpression
  else "FITLER " ++ tableName ++ " WHERE " ++ filterExpression

/-! ## INTEGER literal lowering (source lines 960-970)

`exitLiteralValue` parses an `INTEGER_LITERAL` lexeme with `stod` and
classifies the result against `Int64::MaxValue` and `Int32::MaxValue`. The
comparisons happen in `double`: the literal is correctly rounded to a double,
and `Int64::MaxValue` is itself converted to double for the comparison, which
under round-to-nearest (every mainstream target) yields `2^63` exactly. -/

/-- Fuelled floor-log2 (structural, so the kernel can evaluate it). -/
def log2Fuel : Nat → Nat → Nat
  | 0, _ => 0
  | f + 1, n => if 2 ≤ n then log2Fuel f (n / 2) + 1 else 0

def floorLog2 (n : Nat) : Nat := log2Fuel n n

/-- Correctly rounded conversion of a natural to an IEEE-754 binary64 double:
round to nearest with a 53-bit significand, ties to even. (Overflow to
infinity is immaterial here: such values stay above every threshold.) -/
def roundDouble (n : Nat) : Nat :=
  if n < 2 ^ 53 then n
  else
    let e := floorLog2 n - 52
    let q := n / 2 ^ e
    let r := n % 2 ^ e
    if 2 ^ (e - 1) < r ∨ (r = 2 ^ (e - 1) ∧ q % 2 = 1) then (q + 1) * 2 ^ e
    else q * 2 ^ e

def int64MaxValue : Nat := 9223372036854775807

def int32MaxValue : Nat := 2147483647

/-- `Int64::MaxValue` after the implicit conversion to `double` in
`value > Int64::MaxValue`: `2^63` under round-to-nearest. -/
def int64MaxValueAsDouble : Nat := 9223372036854775808

inductive ExpressionValueType
  | boolean | int32 | int64 | decimal | single | double
  | string | guid | dateTime | undefined
deriving DecidableEq

/-- Outcome of lowering an INTEGER literal: a typed value with its numeric
payload, the `std::out_of_range` exception `stod` throws when the conversion
overflows the double range, or the undefined behavior of an out-of-range
float-to-integer `static_cast` (C++ [conv.fpint]). -/
inductive IntegerLiteralResult where
  | value : ExpressionValueType → Nat → IntegerLiteralResult
  | outOfRange : IntegerLiteralResult
  | castUndefinedBehavior : IntegerLiteralResult
deriving DecidableEq

/-- `static_cast<int64_t>` applied to a nonnegative double of exact value
`v`: value-preserving when `v` is below `2^63`, undefined behavior otherwise
(the truncated value must be representable in the destination type). -/
def castDoubleToInt64 (v : Nat) : IntegerLiteralResult :=
  if v < 2 ^ 63 then .value .int64 v else .castUndefinedBehavior

/-- `static_cast<int32_t>` applied to a nonnegative double of exact value
`v`: value-preserving when `v` is below `2^31`, undefined behavior
otherwise. -/
def castDoubleToInt32 (v : Nat) : IntegerLiteralResult :=
  if v < 2 ^ 31 then .value .int32 v else .castUndefinedBehavior

/-- The INTEGER branch of `exitLiteralValue` (source lines 960-970), for a
lexeme whose exact numeric value is `n`. `stod` rounds `n` to the nearest
double and throws `std::out_of_range` when the rounded value overflows to
infinity (reaches `2^1024`); otherwise the value is classified by the two
comparisons (performed in `double`) and the chosen branch stores the value
through the branch's narrowing cast. -/
def exitLiteralValueInteger (n : Nat) : IntegerLiteralResult :=
  if 2 ^ 1024 ≤ roundDouble n then .outOfRange
  else if int64MaxValueAsDouble < roundDouble n then .value .double (roundDouble n)
  else if int32MaxValue < roundDouble n then castDoubleToInt64 (roundDouble n)
  else castDoubleToInt32 (roundDouble n)

/-- The claim's reading of the same lowering: the parsed value compared
exactly against `Int64.Max` (second definition, for refinement comparison
with `exitLiteralValueInteger`). -/
def integerLiteralTypeClaim (n : Nat) : ExpressionValueType :=
  let value := roundDouble n
  if int64MaxValue < value then .double
  else if int32MaxValue < value then .int64
  else .int32

/-! ## Function-name lowering (source lines 1053-1075) -/

inductive ExpressionFunctionType
  | coalesce | convert | iif | isRegExMatch | len | regExVal | subString | trim
deriving DecidableEq

/-- The function-name dispatch of `exitFunctionExpression` (source lines
1056-1075); `Except.error` is the thrown `FilterExpressionParserException`. -/
def exitFunctionExpressionType (functionName : String) :
    Except String ExpressionFunctionType :=
  if isEqualCI functionName "COALESCE" ∨ isEqualCI functionName "ISNULL" then
    .ok .coalesce
  else if isEqualCI functionName "CONVERT" then .ok .convert
  else if isEqualCI functionName "IIF" then .ok .iif
  else if isEqualCI functionName "ISREGEXMATCH" then .ok .isRegExMatch
  else if isEqualCI functionName "LEN" then .ok .len
  else if isEqualCI functionName "REGEXVAL" then .ok .regExVal
  else if startsWithCI functionName "SUBSTR" then .ok .subString
  else if isEqualCI functionName "TRIM" then .ok .trim
  else .error ("Unexpected function type " ++ functionName)

/-! ## The ORDER BY comparator (source lines 222-239 and 322-408) -/

/-- The `CompareValues<T>` template (source lines 222-239): compare two
nullables; null sorts below non-null. -/
def compareValues {α : Type} [LinearOrder α] : Option α → Option α → Int
  | some leftValue, some rightValue =>
    if leftValue < rightValue then -1 else if rightValue < leftValue then 1 else 0
  | none, none => 0
  | some _, none => 1
  | none, some _ => -1

/-- One term comparison of the order-by lambda's `switch` (source lines
336-396): dispatch on the column's `DataType` and compare the typed cells.
The `String` case inlines the same null handling around `Compare` (the GSF
common library's case-insensitive string comparison; modelled from the spec,
which makes identifier and string matching in the engine case-insensitive). -/
def orderCompareAt (t : DataType) (l r : Option CellValue) : Int :=
  match t with
  | .string =>
    compareValues ((valueAsString l).map upperAscii) ((valueAsString r).map upperAscii)
  | .boolean => compareValues (valueAsBooleanCell l) (valueAsBooleanCell r)
  | .dateTime => compareValues (valueAsDateTime l) (valueAsDateTime r)
  | .single => compareValues (valueAsSingle l) (valueAsSingle r)
  | .double => compareValues (valueAsDouble l) (valueAsDouble r)
  | .decimal => compareValues (valueAsDecimal l) (valueAsDecimal r)
  | .guid => compareValues (valueAsGuid l) (valueAsGuid r)
  | .int8 => compareValues (valueAsInt8 l) (valueAsInt8 r)
  | .int16 => compareValues (valueAsInt16 l) (valueAsInt16 r)
  | .int32 => compareValues (valueAsInt32 l) (valueAsInt32 r)
  | .int64 => compareValues (valueAsInt64 l) (valueAsInt64 r)
  | .uint8 => compareValues (valueAsUInt8 l) (valueAsUInt8 r)
  | .uint16 => compareValues (valueAsUInt16 l) (valueAsUInt16 r)
  | .uint32 => compareValues (valueAsUInt32 l) (valueAsUInt32 r)
  | .uint64 => compareValues (valueAsUInt64 l) (valueAsUInt64 r)

/-- The comparison lambda handed to `std::sort` (source lines 324-408): walk
the order-by terms; for a DESC term swap the two rows; the first non-equal
term decides; all-equal pairs compare "not less". -/
def rowCompareLess : List (DataColumn × Bool) → DataRow → DataRow → Bool
  | [], _, _ => false
  | (orderByColumn, ascending) :: rest, leftMatchedRow, rightMatchedRow =>
    let leftRow := if ascending then leftMatchedRow else rightMatchedRow
    let rightRow := if ascending then rightMatchedRow else leftMatchedRow
    let result := orderCompareAt orderByColumn.dataType
      (leftRow.cell orderByColumn.index) (rightRow.cell orderByColumn.index)
    if result < 0 then true
    else if 0 < result then false
    else rowCompareLess rest leftMatchedRow rightMatchedRow

/-- The postcondition `std::sort` guarantees (and nothing more): the output
is a permutation of the input that is sorted with respect to the comparator,
i.e. no element compares less than its predecessor. Stability is *not* part
of this contract. -/
def sortValid (cmp : DataRow → DataRow → Bool) (input output : List DataRow) : Prop :=
  input.Perm output ∧ output.Chain' (fun a b => cmp b a = false)

/-- A sort implementation, so the executor can be run as a function. -/
def SortImpl : Type := (DataRow → DataRow → Bool) → List DataRow → List DataRow

/-- A sort implementation that permutes its input (part of the `std::sort`
contract). -/
def SortImplPerm (sortImpl : SortImpl) : Prop :=
  ∀ cmp l, (sortImpl cmp l).Perm l

/-! ## `MapMeasurement` (source lines 141-186) -/

/-- The row loop of `MapMeasurement` (source lines 150-185). A `return` in
the source is a branch that yields the state without recursing. -/
def mapMeasurementLoop (signalIDColumnIndex columnIndex : Nat) (mappingValue : String) :
    List (Option DataRow) → ParserState → ParserState
  | [], st => st
  | orow :: rest, st =>
    match orow with
    | none => mapMeasurementLoop signalIDColumnIndex columnIndex mappingValue rest st
    | some row =>
      match valueAsString (row.cell columnIndex) with
      | none => mapMeasurementLoop signalIDColumnIndex columnIndex mappingValue rest st
      | some field =>
        if isEqualCI mappingValue field then
          if st.trackFilteredSignalIDs then
            match valueAsGuid (row.cell signalIDColumnIndex) with
            | none => mapMeasurementLoop signalIDColumnIndex columnIndex mappingValue rest st
            | some signalID =>
              if signalID ≠ 0 ∧ signalID ∉ st.filteredSignalIDSet then
                { st with
                  filteredSignalIDSet := signalID :: st.filteredSignalIDSet,
                  filteredSignalIDs := st.filteredSignalIDs ++ [signalID],
                  filteredRows :=
                    if st.trackFilteredRows then st.filteredRows ++ [row]
                    else st.filteredRows }
              else mapMeasurementLoop signalIDColumnIndex columnIndex mappingValue rest st
          else if st.trackFilteredRows then
            mapMeasurementLoop signalIDColumnIndex columnIndex mappingValue rest
              { st with filteredRows := st.filteredRows ++ [row] }
          else mapMeasurementLoop signalIDColumnIndex columnIndex mappingValue rest st
        else mapMeasurementLoop signalIDColumnIndex columnIndex mappingValue rest st

/-- `MapMeasurement` (source lines 141-186): resolve the mapping column, then
scan the rows. -/
def mapMeasurement (st : ParserState) (measurements : DataTable)
    (signalIDColumnIndex : Nat) (columnName mappingValue : String) : ParserState :=
  match measurements.column columnName with
  | none => st
  | some column =>
    mapMeasurementLoop signalIDColumnIndex column.index mappingValue measurements.rows st

/-! ## Identifier statements (source lines 510-571) -/

/-- An identifier statement with its literal already parsed (quote and brace
stripping of `ParseGuidLiteral` / `ParsePointTagLiteral` happens upstream). -/
inductive IdentifierStatement
  | guidLiteral (g : Nat)
  | measurementKeyLiteral (key : String)
  | pointTagLiteral (tag : String)
deriving DecidableEq

/-- The direct GUID contribution of `exitIdentifierStatement` (source lines
518-519): a non-zero, not-yet-seen signal ID goes straight into the signal-ID
accumulators when they are tracked. -/
def guidDirectStep (st : ParserState) (signalID : Nat) : ParserState :=
  if st.trackFilteredSignalIDs ∧ signalID ≠ 0 ∧ signalID ∉ st.filteredSignalIDSet then
    { st with
      filteredSignalIDSet := signalID :: st.filteredSignalIDSet,
      filteredSignalIDs := st.filteredSignalIDs ++ [signalID] }
  else st

/-- The row lookup for a GUID identifier statement when rows are tracked
(source lines 544-558): append the first row whose signal ID matches, then
stop. -/
def findMatchingRowLoop (signalIDColumnIndex signalID : Nat) :
    List (Option DataRow) → ParserState → ParserState
  | [], st => st
  | orow :: rest, st =>
    match orow with
    | none => findMatchingRowLoop signalIDColumnIndex signalID rest st
    | some row =>
      match valueAsGuid (row.cell signalIDColumnIndex) with
      | none => findMatchingRowLoop signalIDColumnIndex signalID rest st
      | some g =>
        if g = signalID then { st with filteredRows := st.filteredRows ++ [row] }
        else findMatchingRowLoop signalIDColumnIndex signalID rest st

/-- The silent resolution chain of `exitIdentifierStatement` (source lines
525-540): primary table, its ID-fields record, and its signal-ID column; any
failure is a silent return in the source, `none` here. Callers guarantee
`m_dataSet` is non-null; a `none` dataset is folded into the same silent
return. -/
def resolvePrimary (st : ParserState) :
    Option (DataTable × MeasurementTableIDFields × Nat) :=
  match st.dataSet with
  | none => none
  | some ds =>
    match ds.table st.primaryMeasurementTableName with
    | none => none
    | some measurements =>
      match getMeasurementTableIDFields st st.primaryMeasurementTableName with
      | none => none
      | some measurementTableIDFields =>
        match measurements.column measurementTableIDFields.signalIDFieldName with
        | none => none
        | some signalIDColumn =>
          some (measurements, measurementTableIDFields, signalIDColumn.index)

/-- `exitIdentifierStatement` (source lines 510-571). -/
def exitIdentifierStatement (st : ParserState) (stmt : IdentifierStatement) : ParserState :=
  let signalID : Nat := match stmt with | .guidLiteral g => g | _ => 0
  let st1 := match stmt with | .guidLiteral g => guidDirectStep st g | _ => st
  let isGuid : Bool := match stmt with | .guidLiteral _ => true | _ => false
  if isGuid ∧ ¬st1.trackFilteredRows then st1
  else
    match resolvePrimary st1 with
    | none => st1
    | some (measurements, measurementTableIDFields, signalIDColumnIndex) =>
      if st1.trackFilteredRows ∧ signalID ≠ 0 then
        findMatchingRowLoop signalIDColumnIndex signalID measurements.rows st1
      else
        match stmt with
        | .measurementKeyLiteral key =>
          mapMeasurement st1 measurements signalIDColumnIndex
            measurementTableIDFields.measurementKeyFieldName key
        | .pointTagLiteral tag =>
          mapMeasurement st1 measurements signalIDColumnIndex
            measurementTableIDFields.pointTagFieldName tag
        | .guidLiteral _ => st1

/-! ## Filter-statement resolution (source lines 466-501 and 1024-1033) -/

/-- The table resolution of `enterFilterStatement` (source lines 472-476):
a missing table is a thrown `FilterExpressionParserException`. -/
def enterFilterStatementTable (ds : DataSet) (measurementTableName : String) :
    Except String DataTable :=
  match ds.table measurementTableName with
  | none => .error ("Failed to find measurement table " ++ measurementTableName)
  | some measurements => .ok measurements

/-- The column resolution of `exitColumnName` (source lines 1024-1033):
a missing column is a thrown `FilterExpressionParserException`. -/
def exitColumnNameLookup (measurements : DataTable) (columnName : String) :
    Except String DataColumn :=
  match measurements.column columnName with
  | none =>
    .error ("Failed to find column " ++ columnName ++ " in table " ++ measurements.name)
  | some dataColumn => .ok dataColumn

/-! ## The statement executor, `Evaluate` (source lines 241-420) -/

/-- The value an expression tree reduces to at a row, as far as the executor
inspects it: its `ExpressionValueType`, whether it is a typed null, and its
boolean payload. `ValueAsBoolean()` on a null yields `false` (source comment,
line 297: a null final result is treated as false). -/
structure EvalValue where
  valueType : ExpressionValueType
  isNull : Bool
  boolPayload : Bool
deriving DecidableEq

def EvalValue.valueAsBoolean (v : EvalValue) : Bool :=
  if v.isNull then false else v.boolPayload

/-- One expression tree (one filter statement). `rootEval` stands for the
external `ExpressionTree::Evaluate(row)` of a different translation unit.
Modelled from the spec: the evaluator is a pure function from a row to a
value (spec section 4.5), which may fail with an evaluation error (division
by zero on integers, cross-category comparison, ...); it is represented
here by the function it denotes. -/
structure ExpressionTree where
  measurements : DataTable
  topLimit : Int
  orderByTerms : List (DataColumn × Bool)
  rootEval : DataRow → Except String EvalValue

/-- The per-row body of the scan loop (source lines 286-316): evaluate the
root against the row, require a boolean type (anything else is a thrown
evaluation error), treat a null as false, and decide whether the row is
matched; when signal IDs are tracked a matched row also inserts its fresh,
non-zero signal ID into the shared set (a missing, zero, or already-seen
signal ID makes the row a non-match). -/
def scanRowStep (tree : ExpressionTree) (signalIDColumnIndex : Nat) (row : DataRow)
    (st : ParserState) : Except String (Bool × ParserState) :=
  match tree.rootEval row with
  | .error e => .error e
  | .ok resultExpression =>
    if resultExpression.valueType ≠ .boolean then
      .error "Final expression tree evaluation did not result in a boolean value"
    else if resultExpression.valueAsBoolean then
      if st.trackFilteredSignalIDs then
        match valueAsGuid (row.cell signalIDColumnIndex) with
        | none => .ok (false, st)
        | some signalID =>
          if signalID ≠ 0 ∧ signalID ∉ st.filteredSignalIDSet then
            .ok (true, { st with filteredSignalIDSet := signalID :: st.filteredSignalIDSet })
          else .ok (false, st)
      else .ok (true, st)
    else .ok (false, st)

/-- The row scan of one statement (source lines 281-317): stop early when
`TopLimit` is reached, skip null rows, and collect matched rows via
`scanRowStep`. An error carries the parser state at the throw (C++ leaves
the members as they were). -/
def evaluateScan (tree : ExpressionTree) (signalIDColumnIndex : Nat) :
    List (Option DataRow) → List DataRow → ParserState →
    Except (String × ParserState) (List DataRow × ParserState)
  | [], matchedRows, st => .ok (matchedRows, st)
  | orow :: rest, matchedRows, st =>
    if -1 < tree.topLimit ∧ tree.topLimit ≤ (matchedRows.length : Int) then
      .ok (matchedRows, st)
    else
      match orow with
      | none => evaluateScan tree signalIDColumnIndex rest matchedRows st
      | some row =>
        match scanRowStep tree signalIDColumnIndex row st with
        | .error e => .error (e, st)
        | .ok (isMatch, st1) =>
          evaluateScan tree signalIDColumnIndex rest
            (if isMatch then matchedRows ++ [row] else matchedRows) st1

/-- The same scan with the `TopLimit` break removed: the reference for "every
row of the table is scanned". -/
def evaluateScanNoBreak (tree : ExpressionTree) (signalIDColumnIndex : Nat) :
    List (Option DataRow) → List DataRow → ParserState →
    Except (String × ParserState) (List DataRow × ParserState)
  | [], matchedRows, st => .ok (matchedRows, st)
  | orow :: rest, matchedRows, st =>
    match orow with
    | none => evaluateScanNoBreak tree signalIDColumnIndex rest matchedRows st
    | some row =>
      match scanRowStep tree signalIDColumnIndex row st with
      | .error e => .error (e, st)
      | .ok (isMatch, st1) =>
        evaluateScanNoBreak tree signalIDColumnIndex rest
          (if isMatch then matchedRows ++ [row] else matchedRows) st1

/-- `matchedRows[i]->ValueAsGuid(signalIDColumnIndex).GetValueOrDefault()`
(source line 414): the row's signal ID, the all-zeros GUID for a null cell. -/
def rowSignalID (signalIDColumnIndex : Nat) (row : DataRow) : Nat :=
  (valueAsGuid (row.cell signalIDColumnIndex)).getD 0

/-- The append phase of one statement (source lines 411-418): push, in final
order, the signal IDs and/or the rows of the matched set into the
accumulators. -/
def appendMatched (signalIDColumnIndex : Nat) (sorted : List DataRow)
    (st : ParserState) : ParserState :=
  sorted.foldl (fun s row =>
    let s1 :=
      if s.trackFilteredSignalIDs then
        { s with filteredSignalIDs :=
            s.filteredSignalIDs ++ [rowSignalID signalIDColumnIndex row] }
      else s
    if s.trackFilteredRows then { s1 with filteredRows := s1.filteredRows ++ [row] }
    else s1) st

/-- The signal-ID column resolution at the head of each statement's
evaluation (source lines 262-277): when signal IDs are tracked, a missing
ID-fields record or signal-ID column is a thrown exception; otherwise the
index stays at its unused initial value. -/
def resolveSignalIDColumn (st : ParserState) (tree : ExpressionTree) :
    Except (String × ParserState) Nat :=
  if st.trackFilteredSignalIDs then
    match getMeasurementTableIDFields st tree.measurements.name with
    | none =>
      .error ("Failed to find ID fields record for measurement table " ++
        tree.measurements.name, st)
    | some measurementTableIDFields =>
      match tree.measurements.column measurementTableIDFields.signalIDFieldName with
      | none =>
        .error ("Failed to find signal ID field " ++
          measurementTableIDFields.signalIDFieldName ++ " for measurement table " ++
          tree.measurements.name, st)
      | some signalIDColumn => .ok signalIDColumn.index
  else .ok 0

/-- Evaluation of one expression tree (source lines 258-419): resolve the
signal-ID column when tracking signal IDs (absence is fatal), scan the rows,
sort the matched set when order-by terms exist, then append. -/
def evaluateTree (sortImpl : SortImpl) (st : ParserState) (tree : ExpressionTree) :
    Except (String × ParserState) ParserState :=
  match resolveSignalIDColumn st tree with
  | .error e => .error e
  | .ok signalIDColumnIndex =>
    match evaluateScan tree signalIDColumnIndex tree.measurements.rows [] st with
    | .error e => .error e
    | .ok (matchedRows, st1) =>
      if matchedRows.isEmpty then .ok st1
      else
        let sorted :=
          if tree.orderByTerms.isEmpty then matchedRows
          else sortImpl (rowCompareLess tree.orderByTerms) matchedRows
        .ok (appendMatched signalIDColumnIndex sorted st1)

def evaluateTrees (sortImpl : SortImpl) :
    List ExpressionTree → ParserState → Except (String × ParserState) ParserState
  | [], st => .ok st
  | tree :: rest, st =>
    match evaluateTree sortImpl st tree with
    | .error e => .error e
    | .ok st1 => evaluateTrees sortImpl rest st1

/-- The clearing at the head of `Evaluate` (source lines 246-248). -/
def clearAccumulators (st : ParserState) : ParserState :=
  { st with filteredSignalIDSet := [], filteredSignalIDs := [], filteredRows := [] }

/-- `FilterExpressionParser::Evaluate` (source lines 241-420): fail when no
dataset is set; clear the accumulators; walk the parse tree (identifier
statements execute during the walk, in order); then evaluate each filter
statement's expression tree. The parse tree walk itself is abstracted to the
statements it produces. -/
def Evaluate (sortImpl : SortImpl) (idStmts : List IdentifierStatement)
    (trees : List ExpressionTree) (st : ParserState) :
    Except (String × ParserState) ParserState :=
  match st.dataSet with
  | none => .error ("Cannot evaluate filter expression, no dataset has been defined", st)
  | some _ =>
    let st1 := clearAccumulators st
    let st2 := idStmts.foldl exitIdentifierStatement st1
    evaluateTrees sortImpl trees st2

/-! ## Concrete fixtures for the closed theorems -/

/-- The default ID-fields record installed by the constructor
(source lines 111-117). -/
def defaultIDFields : MeasurementTableIDFields :=
  { signalIDFieldName := "SignalID"
    measurementKeyFieldName := "ID"
    pointTagFieldName := "PointTag" }

def signalIDColumn0 : DataColumn := { name := "SignalID", index := 0, dataType := .guid }

def pointTagColumn1 : DataColumn := { name := "PointTag", index := 1, dataType := .string }

def valueColumn2 : DataColumn := { name := "Value", index := 2, dataType := .int32 }

def rowTagA : DataRow := { cells := [some (.guid 11), some (.str "TAG1"), some (.int32 1)] }

def rowTagB : DataRow := { cells := [some (.guid 22), some (.str "TAG1"), some (.int32 1)] }

def measurementsTable : DataTable :=
  { name := "ActiveMeasurements"
    columns := [signalIDColumn0, pointTagColumn1, valueColumn2]
    rows := [some rowTagA, some rowTagB] }

/-- A parser state over `measurementsTable` with empty accumulators and the
given mode flags. -/
def baseState (trackSids trackRows : Bool) : ParserState :=
  { dataSet := some { tables := [measurementsTable] }
    trackFilteredSignalIDs := trackSids
    trackFilteredRows := trackRows
    primaryMeasurementTableName := "ActiveMeasurements"
    measurementTableIDFields := [("ActiveMeasurements", defaultIDFields)]
    filteredSignalIDSet := []
    filteredSignalIDs := []
    filteredRows := [] }

def boolTrueValue : EvalValue := { valueType := .boolean, isNull := false, boolPayload := true }

def nullUndefinedValue : EvalValue := { valueType := .undefined, isNull := true, boolPayload := false }

/-- A statement whose root evaluates to true on the first fixture row and
fails (an integer division by zero) on the second. -/
def treeFailSecond : ExpressionTree :=
  { measurements := measurementsTable
    topLimit := -1
    orderByTerms := []
    rootEval := fun row =>
      if row = rowTagA then .ok boolTrueValue else .error "divide by zero" }

/-- A statement whose root reduces to a typed null of type `Undefined` at
every row (`FILTER ActiveMeasurements WHERE NULL`: the NULL literal lowers to
a null of type Undefined, spec section 4.2, and a literal evaluates to its
stored value, spec section 4.5). -/
def treeNullRoot : ExpressionTree :=
  { measurements := measurementsTable
    topLimit := -1
    orderByTerms := []
    rootEval := fun _ => .ok nullUndefinedValue }

/-- A state with no dataset but non-empty accumulators (left over from an
earlier evaluation). -/
def stateNoDataSet : ParserState :=
  { dataSet := none
    trackFilteredSignalIDs := true
    trackFilteredRows := false
    primaryMeasurementTableName := "ActiveMeasurements"
    measurementTableIDFields := [("ActiveMeasurements", defaultIDFields)]
    filteredSignalIDSet := [5]
    filteredSignalIDs := [5]
    filteredRows := [] }

/-- A state whose dataset exists but contains no tables at all. -/
def stateNoTables : ParserState :=
  { dataSet := some { tables := [] }
    trackFilteredSignalIDs := true
    trackFilteredRows := false
    primaryMeasurementTableName := "ActiveMeasurements"
    measurementTableIDFields := [("ActiveMeasurements", defaultIDFields)]
    filteredSignalIDSet := []
    filteredSignalIDs := []
    filteredRows := [] }

/-- The identity "sort": a legitimate `SortImplPerm` instance. -/
def sortImplId : SortImpl := fun _ l => l

/-- A single ascending order-by term on the `Value` column, under which the
two fixture rows compare equal. -/
def termsC2 : List (DataColumn × Bool) := [(valueColumn2, true)]

/-- A statement with `TOP 1`, an always-true root, and no order-by terms. -/
def treeTopOne : ExpressionTree :=
  { measurements := measurementsTable
    topLimit := 1
    orderByTerms := []
    rootEval := fun _ => .ok boolTrueValue }

/-- The state produced by evaluating `treeTopOne` from
`baseState true false`: the first row matches and `TOP 1` stops the scan. -/
def stateC5Result : ParserState :=
  { baseState true false with filteredSignalIDSet := [11], filteredSignalIDs := [11] }

/-- A state with the given accumulator contents substituted in. -/
def withAccumulators (st : ParserState) (setv sids : List Nat)
    (rows : List DataRow) : ParserState :=
  { st with filteredSignalIDSet := setv, filteredSignalIDs := sids, filteredRows := rows }

/-- The part of the signal-ID invariant that survives a failing `Evaluate`:
both containers are duplicate-free, neither holds the all-zeros GUID, and
every GUID of the sequence is in the set (the set may be ahead of the
sequence when an evaluation error interrupts a statement). -/
def seqSetAligned (st : ParserState) : Prop :=
  st.filteredSignalIDs.Nodup ∧
  st.filteredSignalIDSet.Nodup ∧
  0 ∉ st.filteredSignalIDSet ∧
  ∀ g ∈ st.filteredSignalIDs, g ∈ st.filteredSignalIDSet

/-- The full signal-ID invariant after a successful `Evaluate`: aligned, and
the sequence and the set hold exactly the same GUIDs. -/
def seqSetEqual (st : ParserState) : Prop :=
  seqSetAligned st ∧ ∀ g ∈ st.filteredSignalIDSet, g ∈ st.filteredSignalIDs

/-- Shorthand for the accumulator-growth property of one `MapMeasurement`
scan: the output state extends the input state's accumulators by the three
given suffixes (set entries prepend) and the mode flags are unchanged. -/
def growsBy (stIn stOut : ParserState) (appRows : List DataRow)
    (appSids appSet : List Nat) : Prop :=
  stOut.filteredRows = stIn.filteredRows ++ appRows ∧
  stOut.filteredSignalIDs = stIn.filteredSignalIDs ++ appSids ∧
  stOut.filteredSignalIDSet = appSet ++ stIn.filteredSignalIDSet ∧
  stOut.trackFilteredSignalIDs = stIn.trackFilteredSignalIDs ∧
  stOut.trackFilteredRows = stIn.trackFilteredRows

/-- The claim's description of function-name lowering, stated in the claim's
own order (second definition, for refinement comparison with
`exitFunctionExpressionType`): `COALESCE`/`ISNULL` to `Coalesce`, any name
starting with `SUBSTR` to `SubString`, the remaining known names one-to-one,
anything else a parse error. -/
def functionNameLoweringClaim (functionName : String) :
    Except String ExpressionFunctionType :=
  let u := upperAscii functionName
  if u = "COALESCE" ∨ u = "ISNULL" then .ok .coalesce
  else if listStartsWith u.data "SUBSTR".data then .ok .subString
  else if u = "CONVERT" then .ok .convert
  else if u = "IIF" then .ok .iif
  else if u = "ISREGEXMATCH" then .ok .isRegExMatch
  else if u = "LEN" then .ok .len
  else if u = "REGEXVAL" then .ok .regExVal
  else if u = "TRIM" then .ok .trim
  else .error ("Unexpected function type " ++ functionName)

/-! # Theorems -/

/-! ## Claim C1: the `FILTER ` wrap -/

/-- Claim C1 (code bug). The guard of `GenerateExpressionTree` and `Select`
tests for a leading `FILTER `, but the wrap itself prepends the misspelled
keyword `FITLER ` (source lines 1098 and 1119). A filter text that does not
start with `FILTER ` is therefore wrapped as
`FITLER <tableName> WHERE <filterText>` and not, as specified, as
`FILTER <tableName> WHERE <filterText>`; text that does start with
`FILTER ` is passed through verbatim. -/
theorem c1_wrap_uses_misspelled_keyword :
    startsWithCI "SignalType = 0" "FILTER " = false ∧
    wrapFilterExpression "ActiveMeasurements" "SignalType = 0" =
      "FITLER ActiveMeasurements WHERE SignalType = 0" ∧
    wrapFilterExpression "ActiveMeasurements" "SignalType = 0" ≠
      "FILTER ActiveMeasurements WHERE SignalType = 0" ∧
    wrapFilterExpression "ActiveMeasurements" "FILTER OtherTable WHERE x > 0" =
      "FILTER OtherTable WHERE x > 0" := by
  refine ⟨by decide, by decide, by decide, by decide⟩

/-! ## Claim C8: INTEGER literal lowering -/

theorem log2Fuel_eq (f : Nat) : ∀ n, n ≤ f → log2Fuel f n = Nat.log2 n := by
  induction f with
  | zero =>
    intro n hn
    interval_cases n
    rw [Nat.log2]
    simp [log2Fuel]
  | succ f ih =>
    intro n hn
    rw [Nat.log2, log2Fuel]
    by_cases h2 : 2 ≤ n
    · rw [if_pos h2, if_pos h2, ih (n / 2) (by omega)]
    · rw [if_neg h2, if_neg h2]

theorem floorLog2_eq (n : Nat) : floorLog2 n = Nat.log2 n := log2Fuel_eq n n le_rfl

/-- Below `2^53` every natural is exactly representable as a double. -/
theorem roundDouble_small (n : Nat) (h : n < 2 ^ 53) : roundDouble n = n := by
  unfold roundDouble
  rw [if_pos h]

theorem roundDouble_formula (n : Nat) (h : ¬ n < 2 ^ 53) :
    roundDouble n =
      (if 2 ^ (Nat.log2 n - 52 - 1) < n % 2 ^ (Nat.log2 n - 52) ∨
          (n % 2 ^ (Nat.log2 n - 52) = 2 ^ (Nat.log2 n - 52 - 1) ∧
            (n / 2 ^ (Nat.log2 n - 52)) % 2 = 1) then
        (n / 2 ^ (Nat.log2 n - 52) + 1) * 2 ^ (Nat.log2 n - 52)
      else (n / 2 ^ (Nat.log2 n - 52)) * 2 ^ (Nat.log2 n - 52)) := by
  unfold roundDouble
  rw [if_neg h, floorLog2_eq]

theorem log2_bounds (n : Nat) (h0 : n ≠ 0) :
    2 ^ Nat.log2 n ≤ n ∧ n < 2 ^ (Nat.log2 n + 1) := by
  refine ⟨Nat.log2_self_le h0, ?_⟩
  exact (Nat.log2_lt h0).mp (Nat.lt_succ_self _)

/-- Everything up to `2^63 + 2^10` rounds to a double no larger than `2^63`
(the doubles adjacent to `2^63` are `2^63 - 2^10` and `2^63 + 2^11`; the tie
at `2^63 + 2^10` rounds to the even significand `2^63`). -/
theorem roundDouble_le_2p63 (n : Nat) (h : n ≤ 2 ^ 63 + 2 ^ 10) : roundDouble n ≤ 2 ^ 63 := by
  by_cases hs : n < 2 ^ 53
  · rw [roundDouble_small n hs]
    have : (2 : Nat) ^ 53 ≤ 2 ^ 63 := by norm_num
    omega
  · have h0 : n ≠ 0 := by
      intro hz
      rw [hz] at hs
      exact hs (by norm_num)
    obtain ⟨hk1, hk2⟩ := log2_bounds n h0
    have hk3 : 53 ≤ Nat.log2 n := (Nat.le_log2 h0).mpr (by omega)
    have hk4 : Nat.log2 n ≤ 63 := by
      have := (Nat.log2_lt h0).mpr (show n < 2 ^ 64 by norm_num at h ⊢; omega)
      omega
    rw [roundDouble_formula n hs]
    generalize hgen : Nat.log2 n = k at hk1 hk2 hk3 hk4 ⊢
    interval_cases k <;> (norm_num at hk1 hk2 ⊢; split_ifs <;> norm_num at h ⊢ <;> omega)

/-- Everything above `2^63 + 2^10` rounds to a double strictly above `2^63`. -/
theorem roundDouble_gt_2p63 (n : Nat) (h : 2 ^ 63 + 2 ^ 10 < n) : 2 ^ 63 < roundDouble n := by
  have hs : ¬ n < 2 ^ 53 := by norm_num at h ⊢; omega
  have h0 : n ≠ 0 := by omega
  obtain ⟨hk1, hk2⟩ := log2_bounds n h0
  have hk3 : 63 ≤ Nat.log2 n := by
    refine (Nat.le_log2 h0).mpr ?_
    norm_num at h ⊢
    omega
  rw [roundDouble_formula n hs]
  by_cases hk4 : Nat.log2 n = 63
  · rw [hk4] at hk1 hk2 ⊢
    norm_num at hk1 hk2 ⊢
    split_ifs <;> norm_num at h ⊢ <;> omega
  · have hk5 : 64 ≤ Nat.log2 n := by omega
    have hq : 2 ^ 52 ≤ n / 2 ^ (Nat.log2 n - 52) := by
      rw [Nat.le_div_iff_mul_le (by positivity)]
      calc 2 ^ 52 * 2 ^ (Nat.log2 n - 52) = 2 ^ (52 + (Nat.log2 n - 52)) := by
            rw [pow_add]
      _ = 2 ^ Nat.log2 n := by congr 1; omega
      _ ≤ n := hk1
    have hbig : 2 ^ 63 < n / 2 ^ (Nat.log2 n - 52) * 2 ^ (Nat.log2 n - 52) := by
      calc (2 : Nat) ^ 63 < 2 ^ 64 := by norm_num
      _ = 2 ^ 52 * 2 ^ 12 := by norm_num
      _ ≤ (n / 2 ^ (Nat.log2 n - 52)) * 2 ^ (Nat.log2 n - 52) := by
            apply Nat.mul_le_mul hq
            apply Nat.pow_le_pow_right (by norm_num)
            omega
    split_ifs
    · calc 2 ^ 63 < n / 2 ^ (Nat.log2 n - 52) * 2 ^ (Nat.log2 n - 52) := hbig
      _ ≤ (n / 2 ^ (Nat.log2 n - 52) + 1) * 2 ^ (Nat.log2 n - 52) := by
            apply Nat.mul_le_mul_right
            omega
    · exact hbig

/-- A value of `2^53` or more rounds to a double of `2^53` or more. -/
theorem roundDouble_ge_2p53 (n : Nat) (hs : ¬ n < 2 ^ 53) : 2 ^ 53 ≤ roundDouble n := by
  have h0 : n ≠ 0 := by
    intro hz
    rw [hz] at hs
    exact hs (by norm_num)
  have hk1 : 2 ^ Nat.log2 n ≤ n := Nat.log2_self_le h0
  have hk3 : 53 ≤ Nat.log2 n := (Nat.le_log2 h0).mpr (by omega)
  have hq : 2 ^ 52 ≤ n / 2 ^ (Nat.log2 n - 52) := by
    rw [Nat.le_div_iff_mul_le (by positivity)]
    calc 2 ^ 52 * 2 ^ (Nat.log2 n - 52) = 2 ^ (52 + (Nat.log2 n - 52)) := by rw [pow_add]
    _ = 2 ^ Nat.log2 n := by congr 1; omega
    _ ≤ n := hk1
  have he : 2 ≤ 2 ^ (Nat.log2 n - 52) := by
    calc (2 : Nat) = 2 ^ 1 := by norm_num
    _ ≤ 2 ^ (Nat.log2 n - 52) := Nat.pow_le_pow_right (by norm_num) (by omega)
  have hbase : 2 ^ 53 ≤ n / 2 ^ (Nat.log2 n - 52) * 2 ^ (Nat.log2 n - 52) := by
    calc (2 : Nat) ^ 53 = 2 ^ 52 * 2 := by norm_num
    _ ≤ n / 2 ^ (Nat.log2 n - 52) * 2 ^ (Nat.log2 n - 52) := Nat.mul_le_mul hq he
  rw [roundDouble_formula n hs]
  split_ifs
  · calc (2 : Nat) ^ 53 ≤ n / 2 ^ (Nat.log2 n - 52) * 2 ^ (Nat.log2 n - 52) := hbase
    _ ≤ (n / 2 ^ (Nat.log2 n - 52) + 1) * 2 ^ (Nat.log2 n - 52) :=
          Nat.mul_le_mul_right _ (by omega)
  · exact hbase

/-- Values of `2^63 - 2^9` and above round to a double of `2^63` or more:
below `2^63` the doubles are `2^10` apart, the significand `2^53 - 1` next
to `2^63` is odd, so the tie at `2^63 - 2^9` already rounds up to `2^63`. -/
theorem roundDouble_ge_2p63_low (n : Nat) (h : 2 ^ 63 - 2 ^ 9 ≤ n) :
    2 ^ 63 ≤ roundDouble n := by
  have hs : ¬ n < 2 ^ 53 := by norm_num at h ⊢; omega
  have h0 : n ≠ 0 := by norm_num at h; omega
  obtain ⟨hk1, hk2⟩ := log2_bounds n h0
  have hk3 : 62 ≤ Nat.log2 n := (Nat.le_log2 h0).mpr (by norm_num at h ⊢; omega)
  rw [roundDouble_formula n hs]
  by_cases hk4 : Nat.log2 n = 62
  · rw [hk4] at hk1 hk2 ⊢
    norm_num at hk1 hk2 ⊢
    split_ifs <;> norm_num at h ⊢ <;> omega
  · have hk5 : 63 ≤ Nat.log2 n := by omega
    have hq : 2 ^ 52 ≤ n / 2 ^ (Nat.log2 n - 52) := by
      rw [Nat.le_div_iff_mul_le (by positivity)]
      calc 2 ^ 52 * 2 ^ (Nat.log2 n - 52) = 2 ^ (52 + (Nat.log2 n - 52)) := by rw [pow_add]
      _ = 2 ^ Nat.log2 n := by congr 1; omega
      _ ≤ n := hk1
    have hbase : 2 ^ 63 ≤ n / 2 ^ (Nat.log2 n - 52) * 2 ^ (Nat.log2 n - 52) := by
      calc (2 : Nat) ^ 63 = 2 ^ 52 * 2 ^ 11 := by norm_num
      _ ≤ n / 2 ^ (Nat.log2 n - 52) * 2 ^ (Nat.log2 n - 52) :=
            Nat.mul_le_mul hq (Nat.pow_le_pow_right (by norm_num) (by omega))
    split_ifs
    · calc (2 : Nat) ^ 63 ≤ n / 2 ^ (Nat.log2 n - 52) * 2 ^ (Nat.log2 n - 52) := hbase
      _ ≤ (n / 2 ^ (Nat.log2 n - 52) + 1) * 2 ^ (Nat.log2 n - 52) :=
            Nat.mul_le_mul_right _ (by omega)
    · exact hbase

/-- Values below `2^63 - 2^9` round to a double strictly below `2^63`. -/
theorem roundDouble_lt_2p63 (n : Nat) (h : n < 2 ^ 63 - 2 ^ 9) :
    roundDouble n < 2 ^ 63 := by
  by_cases hs : n < 2 ^ 53
  · rw [roundDouble_small n hs]
    norm_num at h ⊢
    omega
  · have h0 : n ≠ 0 := by
      intro hz
      rw [hz] at hs
      exact hs (by norm_num)
    obtain ⟨hk1, hk2⟩ := log2_bounds n h0
    have hk3 : 53 ≤ Nat.log2 n := (Nat.le_log2 h0).mpr (by omega)
    have hk4 : Nat.log2 n ≤ 62 := by
      have := (Nat.log2_lt h0).mpr (show n < 2 ^ 63 by norm_num at h ⊢; omega)
      omega
    rw [roundDouble_formula n hs]
    generalize hgen : Nat.log2 n = k at hk1 hk2 hk3 hk4 ⊢
    interval_cases k <;> (norm_num at hk1 hk2 ⊢; split_ifs <;> norm_num at h ⊢ <;> omega)

/-- Values of `2^1024 - 2^970` and above round up to `2^1024` or beyond
(overflow to infinity): the largest finite double is `(2^53 - 1) * 2^971`,
its significand is odd, so the tie at `2^1024 - 2^970` rounds up. -/
theorem roundDouble_ge_2p1024 (n : Nat) (h : 2 ^ 1024 - 2 ^ 970 ≤ n) :
    2 ^ 1024 ≤ roundDouble n := by
  have hs : ¬ n < 2 ^ 53 := by
    intro hc
    have : (2 : Nat) ^ 53 ≤ 2 ^ 1024 - 2 ^ 970 := by norm_num
    omega
  have h0 : n ≠ 0 := by
    have : (0 : Nat) < 2 ^ 1024 - 2 ^ 970 := by norm_num
    omega
  obtain ⟨hk1, hk2⟩ := log2_bounds n h0
  have hk3 : 1023 ≤ Nat.log2 n := by
    refine (Nat.le_log2 h0).mpr ?_
    have : (2 : Nat) ^ 1023 ≤ 2 ^ 1024 - 2 ^ 970 := by norm_num
    omega
  rw [roundDouble_formula n hs]
  by_cases hk4 : Nat.log2 n = 1023
  · rw [hk4] at hk1 hk2 ⊢
    norm_num at hk1 hk2 ⊢
    split_ifs <;> norm_num at h ⊢ <;> omega
  · have hk5 : 1024 ≤ Nat.log2 n := by omega
    have hq : 2 ^ 52 ≤ n / 2 ^ (Nat.log2 n - 52) := by
      rw [Nat.le_div_iff_mul_le (by positivity)]
      calc 2 ^ 52 * 2 ^ (Nat.log2 n - 52) = 2 ^ (52 + (Nat.log2 n - 52)) := by rw [pow_add]
      _ = 2 ^ Nat.log2 n := by congr 1; omega
      _ ≤ n := hk1
    have hbase : 2 ^ 1024 ≤ n / 2 ^ (Nat.log2 n - 52) * 2 ^ (Nat.log2 n - 52) := by
      calc (2 : Nat) ^ 1024 = 2 ^ 52 * 2 ^ 972 := by norm_num
      _ ≤ n / 2 ^ (Nat.log2 n - 52) * 2 ^ (Nat.log2 n - 52) :=
            Nat.mul_le_mul hq (Nat.pow_le_pow_right (by norm_num) (by omega))
    split_ifs
    · calc (2 : Nat) ^ 1024 ≤ n / 2 ^ (Nat.log2 n - 52) * 2 ^ (Nat.log2 n - 52) := hbase
      _ ≤ (n / 2 ^ (Nat.log2 n - 52) + 1) * 2 ^ (Nat.log2 n - 52) :=
            Nat.mul_le_mul_right _ (by omega)
    · exact hbase

/-- Values below `2^1024 - 2^970` round to a finite double (below `2^1024`),
so `stod` does not overflow on them. -/
theorem roundDouble_lt_2p1024 (n : Nat) (h : n < 2 ^ 1024 - 2 ^ 970) :
    roundDouble n < 2 ^ 1024 := by
  by_cases hs : n < 2 ^ 53
  · rw [roundDouble_small n hs]
    calc n < 2 ^ 53 := hs
    _ < 2 ^ 1024 := by norm_num
  · have h0 : n ≠ 0 := by
      intro hz
      rw [hz] at hs
      exact hs (by norm_num)
    obtain ⟨hk1, hk2⟩ := log2_bounds n h0
    have hk3 : 53 ≤ Nat.log2 n := (Nat.le_log2 h0).mpr (by omega)
    have hk4 : Nat.log2 n ≤ 1023 := by
      have hlt : n < 2 ^ 1024 := by
        have : (2 : Nat) ^ 970 < 2 ^ 1024 := by norm_num
        omega
      have := (Nat.log2_lt h0).mpr hlt
      omega
    rw [roundDouble_formula n hs]
    by_cases hk5 : Nat.log2 n = 1023
    · rw [hk5] at hk1 hk2 ⊢
      norm_num at hk1 hk2 ⊢
      split_ifs <;> norm_num at h ⊢ <;> omega
    · have hk6 : Nat.log2 n ≤ 1022 := by omega
      have hdm : n / 2 ^ (Nat.log2 n - 52) * 2 ^ (Nat.log2 n - 52) ≤ n :=
        Nat.div_mul_le_self n _
      have hee : 2 ^ (Nat.log2 n - 52) ≤ 2 ^ 970 :=
        Nat.pow_le_pow_right (by norm_num) (by omega)
      have hnlt : n < 2 ^ 1023 :=
        lt_of_lt_of_le hk2 (Nat.pow_le_pow_right (by norm_num) (by omega))
      have hup : (n / 2 ^ (Nat.log2 n - 52) + 1) * 2 ^ (Nat.log2 n - 52) < 2 ^ 1024 := by
        have hsplit : (n / 2 ^ (Nat.log2 n - 52) + 1) * 2 ^ (Nat.log2 n - 52) =
            n / 2 ^ (Nat.log2 n - 52) * 2 ^ (Nat.log2 n - 52) + 2 ^ (Nat.log2 n - 52) := by
          ring
        rw [hsplit]
        have h1 : n / 2 ^ (Nat.log2 n - 52) * 2 ^ (Nat.log2 n - 52) +
            2 ^ (Nat.log2 n - 52) ≤ n + 2 ^ 970 := Nat.add_le_add hdm hee
        have h2 : n + 2 ^ 970 < 2 ^ 1024 := by
          have : (2 : Nat) ^ 1023 + 2 ^ 970 < 2 ^ 1024 := by norm_num
          omega
        omega
      split_ifs
      · exact hup
      · calc n / 2 ^ (Nat.log2 n - 52) * 2 ^ (Nat.log2 n - 52) ≤ n := hdm
        _ < 2 ^ 1024 := by
              have : (2 : Nat) ^ 970 < 2 ^ 1024 := by norm_num
              omega

set_option maxRecDepth 8000 in
/-- Claim C8 (counterexample). The literal `9223372036854775807` — `Int64.Max`
itself — rounds under `stod` to the double `2^63`. That double exceeds
`Int64.Max`, so the claim's reading lowers the literal to a `Double` value;
the code instead compares against `Int64.Max` converted to double (`2^63`),
finds `2^63 > 2^63` false, takes the `Int64` branch, and there executes
`static_cast<int64_t>(2^63)` — an out-of-range conversion, undefined
behavior — so the literal becomes neither a `Double` nor an `Int64` value. -/
theorem c8_integer_literal_counterexample :
    roundDouble 9223372036854775807 = 9223372036854775808 ∧
    int64MaxValue < roundDouble 9223372036854775807 ∧
    integerLiteralTypeClaim 9223372036854775807 = ExpressionValueType.double ∧
    exitLiteralValueInteger 9223372036854775807 =
      IntegerLiteralResult.castUndefinedBehavior := by
  refine ⟨by decide, by decide, by decide, by decide⟩

/-- Claim C8 (amended). An INTEGER literal of exact value `n` is parsed by
`stod` as the correctly rounded double of `n`: if `n` reaches
`2^1024 - 2^970` the rounding overflows and `stod` throws `std::out_of_range`;
otherwise if `n` exceeds `2^63 + 2^10` (the last value rounding to
`Int64.Max`-as-double) the literal becomes a `Double` value holding the
rounded double; otherwise if `n` is within `2^9` below `Int64.Max + 1` (so
the double is exactly `2^63`) the `Int64` branch is taken and its
`static_cast<int64_t>` is undefined behavior; otherwise if `n` exceeds
`Int32.Max` the literal becomes an `Int64` value holding the rounded double
exactly; otherwise an `Int32` value holding `n` itself. -/
theorem c8_integer_literal_amended (n : Nat) :
    exitLiteralValueInteger n =
      (if 2 ^ 1024 - 2 ^ 970 ≤ n then IntegerLiteralResult.outOfRange
       else if 9223372036854775808 + 1024 < n then
         IntegerLiteralResult.value ExpressionValueType.double (roundDouble n)
       else if 9223372036854775808 - 512 ≤ n then
         IntegerLiteralResult.castUndefinedBehavior
       else if 2147483647 < n then
         IntegerLiteralResult.value ExpressionValueType.int64 (roundDouble n)
       else IntegerLiteralResult.value ExpressionValueType.int32 n) := by
  have hA : 9223372036854775808 < roundDouble n ↔ 9223372036854775808 + 1024 < n := by
    constructor
    · intro hgtr
      by_contra hc
      push_neg at hc
      have := roundDouble_le_2p63 n (by norm_num; omega)
      norm_num at this
      omega
    · intro hlt
      have := roundDouble_gt_2p63 n (by norm_num; omega)
      norm_num at this
      omega
  have hB : 2147483647 < roundDouble n ↔ 2147483647 < n := by
    constructor
    · intro hr
      by_cases hs : n < 2 ^ 53
      · rw [roundDouble_small n hs] at hr
        exact hr
      · norm_num at hs
        omega
    · intro hn
      by_cases hs : n < 2 ^ 53
      · rw [roundDouble_small n hs]
        exact hn
      · have := roundDouble_ge_2p53 n hs
        norm_num at this
        omega
  have hC : ¬ 2147483647 < n → roundDouble n = n := by
    intro hn
    apply roundDouble_small
    norm_num
    omega
  have hshape : exitLiteralValueInteger n =
      (if 2 ^ 1024 ≤ roundDouble n then IntegerLiteralResult.outOfRange
       else if 9223372036854775808 < roundDouble n then
         IntegerLiteralResult.value ExpressionValueType.double (roundDouble n)
       else if 2147483647 < roundDouble n then
         (if roundDouble n < 2 ^ 63 then
           IntegerLiteralResult.value ExpressionValueType.int64 (roundDouble n)
         else IntegerLiteralResult.castUndefinedBehavior)
       else if roundDouble n < 2 ^ 31 then
         IntegerLiteralResult.value ExpressionValueType.int32 (roundDouble n)
       else IntegerLiteralResult.castUndefinedBehavior) := rfl
  rw [hshape]
  by_cases h1 : 2 ^ 1024 - 2 ^ 970 ≤ n
  · rw [if_pos (roundDouble_ge_2p1024 n h1), if_pos h1]
  · have hof : roundDouble n < 2 ^ 1024 := roundDouble_lt_2p1024 n (by omega)
    rw [if_neg (by omega), if_neg h1]
    by_cases h2 : 9223372036854775808 + 1024 < n
    · rw [if_pos (hA.mpr h2), if_pos h2]
    · rw [if_neg (fun hcon => h2 (hA.mp hcon)), if_neg h2]
      by_cases h3 : 9223372036854775808 - 512 ≤ n
      · have hge : 2 ^ 63 ≤ roundDouble n :=
          roundDouble_ge_2p63_low n (by norm_num at h3 ⊢; omega)
        have hgt31 : 2147483647 < roundDouble n := by
          norm_num at hge ⊢
          omega
        rw [if_pos hgt31, if_neg (by omega), if_pos h3]
      · have hlt : roundDouble n < 2 ^ 63 :=
          roundDouble_lt_2p63 n (by norm_num at h3 ⊢; omega)
        rw [if_neg h3]
        by_cases h4 : 2147483647 < n
        · rw [if_pos (hB.mpr h4), if_pos hlt, if_pos h4]
        · have heq := hC h4
          rw [if_neg (fun hcon => h4 (hB.mp hcon)), if_neg h4,
            if_pos (show roundDouble n < 2 ^ 31 by rw [heq]; norm_num; omega), heq]

/-! ## Claim C9: function-name lowering -/

/-- Claim C9 (confirmed). Function-name lowering is exactly the claim's
mapping: case-insensitively, `COALESCE` and `ISNULL` both lower to
`Coalesce`; any name starting with `SUBSTR` lowers to `SubString`; each
remaining known name maps one-to-one to its function enum value; every other
name raises a parse error. -/
theorem c9_function_name_lowering (functionName : String) :
    exitFunctionExpressionType functionName = functionNameLoweringClaim functionName := by
  have eCO : upperAscii "COALESCE" = "COALESCE" := by decide
  have eIS : upperAscii "ISNULL" = "ISNULL" := by decide
  have eCV : upperAscii "CONVERT" = "CONVERT" := by decide
  have eII : upperAscii "IIF" = "IIF" := by decide
  have eRM : upperAscii "ISREGEXMATCH" = "ISREGEXMATCH" := by decide
  have eLE : upperAscii "LEN" = "LEN" := by decide
  have eRV : upperAscii "REGEXVAL" = "REGEXVAL" := by decide
  have eSU : upperAscii "SUBSTR" = "SUBSTR" := by decide
  have eTR : upperAscii "TRIM" = "TRIM" := by decide
  unfold exitFunctionExpressionType functionNameLoweringClaim
  simp only [isEqualCI, startsWithCI, eCO, eIS, eCV, eII, eRM, eLE, eRV, eSU, eTR,
    decide_eq_true_eq]
  generalize upperAscii functionName = u
  split_ifs <;> subst_eqs <;> simp_all

/-! ## Claim C3: identifier-statement resolution scans -/

/-- Effect of the `MapMeasurement` row loop: the filtered-rows accumulator
grows by a subsequence of the table's non-null rows, the signal-ID sequence
and set grow by the same (at most one-element) list of fresh, non-zero
signal IDs, and when signal IDs are tracked at most one row is contributed. -/
theorem mapMeasurementLoop_spec (signalIDColumnIndex columnIndex : Nat) (mappingValue : String) :
    ∀ (rows : List (Option DataRow)) (st : ParserState),
      ∃ appRows appSids appSet,
        growsBy st (mapMeasurementLoop signalIDColumnIndex columnIndex mappingValue rows st)
          appRows appSids appSet ∧
        appRows.Sublist (rows.filterMap id) ∧
        appSids.length ≤ 1 ∧ appSet.length ≤ 1 ∧
        (st.trackFilteredSignalIDs = true → appRows.length ≤ 1) ∧
        appSids = appSet ∧
        (∀ g ∈ appSet, g ≠ 0 ∧ g ∉ st.filteredSignalIDSet) := by
  intro rows
  induction rows with
  | nil =>
    intro st
    refine ⟨[], [], [], ?_, ?_, ?_, ?_, ?_, ?_, ?_⟩ <;> simp [growsBy, mapMeasurementLoop]
  | cons orow rest ih =>
    intro st
    have skipStep : ∀ st',
        mapMeasurementLoop signalIDColumnIndex columnIndex mappingValue (orow :: rest) st' =
          mapMeasurementLoop signalIDColumnIndex columnIndex mappingValue rest st' →
        (∃ appRows appSids appSet,
          growsBy st' (mapMeasurementLoop signalIDColumnIndex columnIndex mappingValue rest st')
            appRows appSids appSet ∧
          appRows.Sublist (rest.filterMap id) ∧
          appSids.length ≤ 1 ∧ appSet.length ≤ 1 ∧
          (st'.trackFilteredSignalIDs = true → appRows.length ≤ 1) ∧
          appSids = appSet ∧
          (∀ g ∈ appSet, g ≠ 0 ∧ g ∉ st'.filteredSignalIDSet)) →
        ∃ appRows appSids appSet,
          growsBy st' (mapMeasurementLoop signalIDColumnIndex columnIndex mappingValue
              (orow :: rest) st') appRows appSids appSet ∧
          appRows.Sublist ((orow :: rest).filterMap id) ∧
          appSids.length ≤ 1 ∧ appSet.length ≤ 1 ∧
          (st'.trackFilteredSignalIDs = true → appRows.length ≤ 1) ∧
          appSids = appSet ∧
          (∀ g ∈ appSet, g ≠ 0 ∧ g ∉ st'.filteredSignalIDSet) := by
      intro st' hstep hrec
      obtain ⟨appRows, appSids, appSet, heq, hsub, h1, h2, h3, h4, h5⟩ := hrec
      refine ⟨appRows, appSids, appSet, ?_, ?_, h1, h2, h3, h4, h5⟩
      · rw [hstep]
        exact heq
      · cases orow with
        | none => simpa using hsub
        | some row => simpa using hsub.cons row
    match orow with
    | none =>
      refine skipStep st ?_ (ih st)
      simp [mapMeasurementLoop]
    | some row =>
      rcases hfv : valueAsString (row.cell columnIndex) with _ | field
      · refine skipStep st ?_ (ih st)
        simp [mapMeasurementLoop, hfv]
      · by_cases hmatch : isEqualCI mappingValue field = true
        · by_cases htrack : st.trackFilteredSignalIDs = true
          · rcases hgv : valueAsGuid (row.cell signalIDColumnIndex) with _ | signalID
            · refine skipStep st ?_ (ih st)
              simp [mapMeasurementLoop, hfv, hmatch, htrack, hgv]
            · by_cases hfresh : signalID ≠ 0 ∧ signalID ∉ st.filteredSignalIDSet
              · -- the accepting branch: stop the scan, contribute once
                have hstep : mapMeasurementLoop signalIDColumnIndex columnIndex mappingValue
                    (some row :: rest) st =
                    { st with
                      filteredSignalIDSet := signalID :: st.filteredSignalIDSet
                      filteredSignalIDs := st.filteredSignalIDs ++ [signalID]
                      filteredRows :=
                        if st.trackFilteredRows then st.filteredRows ++ [row]
                        else st.filteredRows } := by
                  simp only [mapMeasurementLoop, hfv, hmatch, htrack, hgv]
                  simp only [if_true]
                  rw [if_pos hfresh]
                rw [hstep]
                refine ⟨if st.trackFilteredRows then [row] else [], [signalID], [signalID],
                  ?_, ?_, by simp, by simp, ?_, rfl, ?_⟩
                · refine ⟨?_, by simp, by simp, by simp, by simp⟩
                  by_cases hr : st.trackFilteredRows = true <;> simp [hr]
                · by_cases hr : st.trackFilteredRows = true <;> simp [hr]
                · intro
                  by_cases hr : st.trackFilteredRows = true <;> simp [hr]
                · intro g hg
                  rw [List.mem_singleton] at hg
                  subst hg
                  exact hfresh
              · refine skipStep st ?_ (ih st)
                simp only [mapMeasurementLoop, hfv, hmatch, htrack, hgv]
                simp only [if_true]
                rw [if_neg hfresh]
          · have htrack' : st.trackFilteredSignalIDs = false := by
              revert htrack
              cases st.trackFilteredSignalIDs <;> simp
            by_cases hrows : st.trackFilteredRows = true
            · -- track rows only: append the row and keep scanning
              have hstep : mapMeasurementLoop signalIDColumnIndex columnIndex mappingValue
                  (some row :: rest) st =
                  mapMeasurementLoop signalIDColumnIndex columnIndex mappingValue rest
                    { st with filteredRows := st.filteredRows ++ [row] } := by
                simp [mapMeasurementLoop, hfv, hmatch, htrack', hrows]
              obtain ⟨appRows, appSids, appSet, heq, hsub, h1, h2, h3, h4, h5⟩ :=
                ih { st with filteredRows := st.filteredRows ++ [row] }
              obtain ⟨g1, g2, g3, g4, g5⟩ := heq
              refine ⟨row :: appRows, appSids, appSet, ?_, ?_, h1, h2, ?_, h4, ?_⟩
              · rw [hstep]
                refine ⟨?_, by simpa using g2, by simpa using g3,
                  by simpa using g4, by simpa using g5⟩
                rw [g1]
                simp
              · simpa using List.Sublist.cons₂ row hsub
              · intro hcon
                rw [htrack'] at hcon
                cases hcon
              · intro g hg
                simpa using h5 g hg
            · refine skipStep st ?_ (ih st)
              have hrows' : st.trackFilteredRows = false := by
                revert hrows
                cases st.trackFilteredRows <;> simp
              simp [mapMeasurementLoop, hfv, hmatch, htrack', hrows']
        · refine skipStep st ?_ (ih st)
          simp only [mapMeasurementLoop, hfv]
          rw [if_neg hmatch]

/-- Claim C3 (counterexample). With `trackFilteredSignalIDs` off and
`trackFilteredRows` on, `MapMeasurement` does not stop at the first matching
row: resolving point tag `TAG1` against a table whose two rows both carry
that tag appends both rows to `filteredRows`. -/
theorem c3_map_measurement_counterexample :
    (baseState false true).filteredRows = [] ∧
    valueAsString (rowTagA.cell 1) = some "TAG1" ∧
    valueAsString (rowTagB.cell 1) = some "TAG1" ∧
    (mapMeasurement (baseState false true) measurementsTable 0 "PointTag" "TAG1").filteredRows =
      [rowTagA, rowTagB] := by
  refine ⟨by decide, by decide, by decide, by decide⟩

/-- Claim C3 (amended). A `MapMeasurement` resolution appends a subsequence
of the table's non-null rows to `filteredRows` (so a single row contributes
at most one entry), appends at most one signal ID to the sequence and to the
set, changes nothing else, and — when `trackFilteredSignalIDs` is set — stops
after the first row that matches and yields a fresh, non-zero signal ID, so
that at most one row is contributed; when only `trackFilteredRows` is set,
every matching row is appended. -/
theorem c3_map_measurement_amended (st : ParserState) (measurements : DataTable)
    (signalIDColumnIndex : Nat) (columnName mappingValue : String) :
    ∃ appRows appSids appSet,
      growsBy st (mapMeasurement st measurements signalIDColumnIndex columnName mappingValue)
        appRows appSids appSet ∧
      appRows.Sublist (measurements.rows.filterMap id) ∧
      appSids.length ≤ 1 ∧ appSet.length ≤ 1 ∧
      (st.trackFilteredSignalIDs = true → appRows.length ≤ 1) := by
  unfold mapMeasurement
  match measurements.column columnName with
  | none =>
    refine ⟨[], [], [], ?_, ?_, ?_, ?_, ?_⟩ <;> simp [growsBy]
  | some column =>
    obtain ⟨appRows, appSids, appSet, hgrow, hsub, h1, h2, h3, _, _⟩ :=
      mapMeasurementLoop_spec signalIDColumnIndex column.index mappingValue
        measurements.rows st
    exact ⟨appRows, appSids, appSet, hgrow, hsub, h1, h2, h3⟩

/-- Claim C3 amended, applied at a concrete input. -/
theorem c3_map_measurement_amended_witness :
    ∃ appRows appSids appSet,
      growsBy (baseState true false)
        (mapMeasurement (baseState true false) measurementsTable 0 "PointTag" "TAG1")
        appRows appSids appSet ∧
      appRows.Sublist (measurementsTable.rows.filterMap id) ∧
      appSids.length ≤ 1 ∧ appSet.length ≤ 1 ∧
      ((baseState true false).trackFilteredSignalIDs = true → appRows.length ≤ 1) :=
  c3_map_measurement_amended (baseState true false) measurementsTable 0 "PointTag" "TAG1"

/-! ## Claim C10: silent identifier-statement resolution failures -/

theorem guidDirectStep_fields (st : ParserState) (g : Nat) :
    (guidDirectStep st g).dataSet = st.dataSet ∧
    (guidDirectStep st g).primaryMeasurementTableName = st.primaryMeasurementTableName ∧
    (guidDirectStep st g).measurementTableIDFields = st.measurementTableIDFields ∧
    (guidDirectStep st g).trackFilteredRows = st.trackFilteredRows ∧
    (guidDirectStep st g).filteredRows = st.filteredRows := by
  unfold guidDirectStep
  split_ifs <;> simp

theorem resolvePrimary_guidDirectStep (st : ParserState) (g : Nat) :
    resolvePrimary (guidDirectStep st g) = resolvePrimary st := by
  obtain ⟨p1, p2, p3, _, _⟩ := guidDirectStep_fields st g
  unfold resolvePrimary getMeasurementTableIDFields
  rw [p1, p2, p3]

theorem resolvePrimary_eq_none (st : ParserState) (ds : DataSet)
    (hds : st.dataSet = some ds)
    (hfail : ds.table st.primaryMeasurementTableName = none ∨
      getMeasurementTableIDFields st st.primaryMeasurementTableName = none ∨
      (∃ measurements idf,
        ds.table st.primaryMeasurementTableName = some measurements ∧
        getMeasurementTableIDFields st st.primaryMeasurementTableName = some idf ∧
        measurements.column idf.signalIDFieldName = none)) :
    resolvePrimary st = none := by
  unfold resolvePrimary
  simp only [hds]
  rcases hfail with h | h | ⟨m, idf, hm, hidf, hcol⟩
  · simp only [h]
  · rcases htab : ds.table st.primaryMeasurementTableName with _ | m
    · simp only [htab]
    · simp only [htab, h]
  · simp only [hm, hidf, hcol]

/-- Claim C10 (counterexample). A GUID identifier statement is not silent
when the primary table is missing: with signal-ID tracking on it still
contributes its literal GUID to the signal-ID accumulators (source lines
514-519 run before any table lookup), so the statement does not "contribute
nothing to the accumulators". -/
theorem c10_identifier_counterexample :
    stateNoTables.dataSet = some (DataSet.mk []) ∧
    (DataSet.mk []).table stateNoTables.primaryMeasurementTableName = none ∧
    stateNoTables.filteredSignalIDs = [] ∧
    (exitIdentifierStatement stateNoTables (.guidLiteral 7)).filteredSignalIDs = [7] := by
  refine ⟨by decide, by decide, by decide, by decide⟩

/-- Claim C10 (amended). When the primary measurement table is missing, or it
has no `MeasurementTableIDFields` record, or its signal-ID column cannot be
resolved, an identifier statement raises no error: a measurement-key or
point-tag statement leaves the state untouched, and a GUID statement performs
only its direct signal-ID contribution (which consults no table) while
contributing no rows. In contrast, for FILTER statements an unresolved table
(`enterFilterStatement`) or column (`exitColumnName`) is a thrown parse
error. -/
theorem c10_identifier_silent_amended (st : ParserState) (ds ds2 : DataSet)
    (stmt : IdentifierStatement) (tbl : DataTable) (tableName columnName : String)
    (hds : st.dataSet = some ds)
    (hfail : ds.table st.primaryMeasurementTableName = none ∨
      getMeasurementTableIDFields st st.primaryMeasurementTableName = none ∨
      (∃ measurements idf,
        ds.table st.primaryMeasurementTableName = some measurements ∧
        getMeasurementTableIDFields st st.primaryMeasurementTableName = some idf ∧
        measurements.column idf.signalIDFieldName = none))
    (htn : ds2.table tableName = none)
    (hcn : tbl.column columnName = none) :
    exitIdentifierStatement st stmt =
      (match stmt with
       | .guidLiteral g => guidDirectStep st g
       | _ => st) ∧
    (exitIdentifierStatement st stmt).filteredRows = st.filteredRows ∧
    (∃ e, enterFilterStatementTable ds2 tableName = Except.error e) ∧
    (∃ e, exitColumnNameLookup tbl columnName = Except.error e) := by
  have hres : resolvePrimary st = none := resolvePrimary_eq_none st ds hds hfail
  have hmain : exitIdentifierStatement st stmt =
      (match stmt with
       | .guidLiteral g => guidDirectStep st g
       | _ => st) := by
    cases stmt with
    | guidLiteral g =>
      simp [exitIdentifierStatement, resolvePrimary_guidDirectStep st g, hres]
    | measurementKeyLiteral key =>
      simp [exitIdentifierStatement, hres]
    | pointTagLiteral tag =>
      simp [exitIdentifierStatement, hres]
  refine ⟨hmain, ?_, ?_, ?_⟩
  · rw [hmain]
    cases stmt with
    | guidLiteral g => exact (guidDirectStep_fields st g).2.2.2.2
    | measurementKeyLiteral key => rfl
    | pointTagLiteral tag => rfl
  · unfold enterFilterStatementTable
    rw [htn]
    exact ⟨_, rfl⟩
  · unfold exitColumnNameLookup
    rw [hcn]
    exact ⟨_, rfl⟩

/-! ## Claim C2: ORDER BY and stability -/

theorem compareValues_swap {α : Type} [LinearOrder α] (x y : Option α) :
    compareValues x y = -compareValues y x := by
  rcases x with _ | a <;> rcases y with _ | b <;> simp [compareValues]
  rcases lt_trichotomy a b with h | h | h
  · simp [h, not_lt.mpr h.le]
  · simp [h, lt_irrefl]
  · simp [h, not_lt.mpr h.le]

theorem compareValues_nonneg_trans {α : Type} [LinearOrder α] (x y z : Option α)
    (h1 : 0 ≤ compareValues x y) (h2 : 0 ≤ compareValues y z) :
    0 ≤ compareValues x z ∧
      (compareValues x z = 0 → compareValues x y = 0 ∧ compareValues y z = 0) := by
  rcases x with _ | a <;> rcases y with _ | b <;> rcases z with _ | c <;>
    simp_all [compareValues]
  rcases lt_trichotomy a b with hab | hab | hab <;>
    rcases lt_trichotomy b c with hbc | hbc | hbc <;>
      simp_all [not_lt.mpr, lt_irrefl] <;>
        first
          | omega
          | (constructor <;> omega)
          | (have hac := lt_trans hbc hab
             simp [hac, not_lt.mpr hac.le])

theorem orderCompareAt_swap (t : DataType) (x y : Option CellValue) :
    orderCompareAt t x y = -orderCompareAt t y x := by
  cases t <;> (simp only [orderCompareAt]; exact compareValues_swap _ _)

theorem orderCompareAt_nonneg_trans (t : DataType) (x y z : Option CellValue) :
    0 ≤ orderCompareAt t x y → 0 ≤ orderCompareAt t y z →
    0 ≤ orderCompareAt t x z ∧
      (orderCompareAt t x z = 0 → orderCompareAt t x y = 0 ∧ orderCompareAt t y z = 0) := by
  cases t <;>
    (simp only [orderCompareAt]; exact fun h1 h2 => compareValues_nonneg_trans _ _ _ h1 h2)

/-- The order-by comparator is asymmetric: a pair never compares "less" both
ways. -/
theorem rowCompareLess_asymm (terms : List (DataColumn × Bool)) (a b : DataRow)
    (h : rowCompareLess terms a b = true) : rowCompareLess terms b a = false := by
  induction terms with
  | nil => simp [rowCompareLess] at h
  | cons term rest ih =>
    rcases term with ⟨col, asc⟩
    simp only [rowCompareLess] at h ⊢
    cases asc <;>
      simp only [Bool.false_eq_true, if_false, if_true] at h ⊢
    · rw [orderCompareAt_swap col.dataType (b.cell col.index) (a.cell col.index)] at h
      generalize orderCompareAt col.dataType (a.cell col.index) (b.cell col.index) = u at h ⊢
      split_ifs at h ⊢ <;> first | rfl | omega | exact ih h
    · rw [orderCompareAt_swap col.dataType (b.cell col.index) (a.cell col.index)]
      generalize orderCompareAt col.dataType (a.cell col.index) (b.cell col.index) = u at h ⊢
      split_ifs at h ⊢ <;> first | rfl | omega | exact ih h

/-- The negation of the order-by comparator is transitive. -/
theorem rowCompareLess_false_trans (terms : List (DataColumn × Bool)) (a b c : DataRow)
    (h1 : rowCompareLess terms b a = false) (h2 : rowCompareLess terms c b = false) :
    rowCompareLess terms c a = false := by
  induction terms with
  | nil => simp [rowCompareLess]
  | cons term rest ih =>
    rcases term with ⟨col, asc⟩
    simp only [rowCompareLess] at h1 h2 ⊢
    cases asc <;>
      simp only [Bool.false_eq_true, if_false, if_true] at h1 h2 ⊢
    · -- DESC: the pair is reversed before comparison
      have hu0 : 0 ≤ orderCompareAt col.dataType (a.cell col.index) (b.cell col.index) := by
        by_contra hneg
        push_neg at hneg
        rw [if_pos hneg] at h1
        cases h1
      have hv0 : 0 ≤ orderCompareAt col.dataType (b.cell col.index) (c.cell col.index) := by
        by_contra hneg
        push_neg at hneg
        rw [if_pos hneg] at h2
        cases h2
      obtain ⟨hw0, hwz⟩ := orderCompareAt_nonneg_trans col.dataType
        (a.cell col.index) (b.cell col.index) (c.cell col.index) hu0 hv0
      rw [if_neg (not_lt.mpr hw0)]
      by_cases hw : 0 < orderCompareAt col.dataType (a.cell col.index) (c.cell col.index)
      · rw [if_pos hw]
      · rw [if_neg hw]
        obtain ⟨huz, hvz⟩ := hwz (by omega)
        have h1r : rowCompareLess rest b a = false := by
          rw [huz] at h1
          simpa using h1
        have h2r : rowCompareLess rest c b = false := by
          rw [hvz] at h2
          simpa using h2
        exact ih h1r h2r
    · -- ASC
      have hu0 : 0 ≤ orderCompareAt col.dataType (b.cell col.index) (a.cell col.index) := by
        by_contra hneg
        push_neg at hneg
        rw [if_pos hneg] at h1
        cases h1
      have hv0 : 0 ≤ orderCompareAt col.dataType (c.cell col.index) (b.cell col.index) := by
        by_contra hneg
        push_neg at hneg
        rw [if_pos hneg] at h2
        cases h2
      obtain ⟨hw0, hwz⟩ := orderCompareAt_nonneg_trans col.dataType
        (c.cell col.index) (b.cell col.index) (a.cell col.index) hv0 hu0
      rw [if_neg (not_lt.mpr hw0)]
      by_cases hw : 0 < orderCompareAt col.dataType (c.cell col.index) (a.cell col.index)
      · rw [if_pos hw]
      · rw [if_neg hw]
        obtain ⟨hvz, huz⟩ := hwz (by omega)
        have h1r : rowCompareLess rest b a = false := by
          rw [huz] at h1
          simpa using h1
        have h2r : rowCompareLess rest c b = false := by
          rw [hvz] at h2
          simpa using h2
        exact ih h1r h2r

/-- Claim C2 (counterexample). `std::sort` guarantees only a comparator-
sorted permutation. The two fixture rows compare equal under the single
order-by term, so the outcome that reverses their input order satisfies the
full `std::sort` postcondition: the sort is not required to be stable, and
the claim fails on the code (which calls `std::sort`, not
`std::stable_sort`). -/
theorem c2_sort_stability_counterexample :
    rowCompareLess termsC2 rowTagA rowTagB = false ∧
    rowCompareLess termsC2 rowTagB rowTagA = false ∧
    sortValid (rowCompareLess termsC2) [rowTagA, rowTagB] [rowTagB, rowTagA] ∧
    [rowTagB, rowTagA] ≠ [rowTagA, rowTagB] := by
  refine ⟨by decide, by decide, ⟨?_, ?_⟩, by decide⟩
  · decide
  · refine List.chain'_cons.mpr ⟨by decide, ?_⟩
    simp

/-- Claim C2 (amended). When `orderByTerms` is non-empty the sort produces
*some* permutation of the matched rows in which no row compares less than its
predecessor under the term-walking comparator; such an outcome always exists
(the comparator's negation is total and transitive), but the relative order
of rows that compare equal under all terms is not guaranteed. -/
theorem c2_sort_amended (terms : List (DataColumn × Bool)) (matchedRows : List DataRow) :
    ∃ sorted, sortValid (rowCompareLess terms) matchedRows sorted := by
  haveI hdec : DecidableRel (fun a b : DataRow => rowCompareLess terms b a = false) :=
    fun _ _ => instDecidableEqBool _ _
  haveI htot : IsTotal DataRow (fun a b : DataRow => rowCompareLess terms b a = false) := by
    constructor
    intro a b
    by_cases hab : rowCompareLess terms b a = true
    · exact Or.inr (rowCompareLess_asymm terms b a hab)
    · exact Or.inl (by revert hab; cases rowCompareLess terms b a <;> simp)
  haveI htrans : IsTrans DataRow (fun a b : DataRow => rowCompareLess terms b a = false) := by
    constructor
    intro a b c h1 h2
    exact rowCompareLess_false_trans terms a b c h1 h2
  refine ⟨List.insertionSort (fun a b : DataRow => rowCompareLess terms b a = false)
    matchedRows, ?_, ?_⟩
  · exact (List.perm_insertionSort _ _).symm
  · exact (List.sorted_insertionSort
      (fun a b : DataRow => rowCompareLess terms b a = false) matchedRows).chain'

/-- Claim C10 amended, applied at concrete inputs. -/
theorem c10_identifier_silent_amended_witness :
    exitIdentifierStatement stateNoTables (.measurementKeyLiteral "PPA:1") =
      (match IdentifierStatement.measurementKeyLiteral "PPA:1" with
       | .guidLiteral g => guidDirectStep stateNoTables g
       | _ => stateNoTables) ∧
    (exitIdentifierStatement stateNoTables (.measurementKeyLiteral "PPA:1")).filteredRows =
      stateNoTables.filteredRows ∧
    (∃ e, enterFilterStatementTable (DataSet.mk []) "ActiveMeasurements" = Except.error e) ∧
    (∃ e, exitColumnNameLookup measurementsTable "NoSuchColumn" = Except.error e) :=
  c10_identifier_silent_amended stateNoTables (DataSet.mk []) (DataSet.mk [])
    (.measurementKeyLiteral "PPA:1") measurementsTable "ActiveMeasurements" "NoSuchColumn"
    (by decide) (Or.inl (by decide)) (by decide) (by decide)

/-! ## Claim C4: TOP limits -/

/-- Once the matched set has reached a non-negative `TopLimit`, the scan
stops without touching further rows. -/
theorem evaluateScan_break (tree : ExpressionTree) (signalIDColumnIndex : Nat)
    (rows : List (Option DataRow)) (matchedRows : List DataRow) (st : ParserState)
    (hL : 0 ≤ tree.topLimit) (hfull : tree.topLimit ≤ (matchedRows.length : Int)) :
    evaluateScan tree signalIDColumnIndex rows matchedRows st = .ok (matchedRows, st) := by
  cases rows with
  | nil => rfl
  | cons orow rest =>
    simp only [evaluateScan]
    rw [if_pos ⟨by omega, hfull⟩]

/-- The scan only ever appends to its matched accumulator. -/
theorem evaluateScanNoBreak_prefix (tree : ExpressionTree) (signalIDColumnIndex : Nat) :
    ∀ (rows : List (Option DataRow)) (matchedRows : List DataRow) (st : ParserState)
      (mOut : List DataRow) (stOut : ParserState),
      evaluateScanNoBreak tree signalIDColumnIndex rows matchedRows st = .ok (mOut, stOut) →
      ∃ d, mOut = matchedRows ++ d := by
  intro rows
  induction rows with
  | nil =>
    intro matchedRows st mOut stOut h
    simp only [evaluateScanNoBreak, Except.ok.injEq, Prod.mk.injEq] at h
    exact ⟨[], by simp [← h.1]⟩
  | cons orow rest ih =>
    intro matchedRows st mOut stOut h
    simp only [evaluateScanNoBreak] at h
    rcases orow with _ | row
    · exact ih matchedRows st mOut stOut h
    · rcases hs : scanRowStep tree signalIDColumnIndex row st with e | ⟨isMatch, st1⟩ <;>
        simp only [hs] at h
      · cases h
      · cases isMatch
        · simp only [Bool.false_eq_true, if_false] at h
          exact ih matchedRows st1 mOut stOut h
        · simp only [if_true] at h
          obtain ⟨d, hd⟩ := ih (matchedRows ++ [row]) st1 mOut stOut h
          exact ⟨row :: d, by simpa using hd⟩

/-- With a non-negative `TopLimit` the scan returns exactly the first
`TopLimit` entries (in table order) of what the unlimited scan would have
matched. -/
theorem evaluateScan_take (tree : ExpressionTree) (signalIDColumnIndex : Nat)
    (hL : 0 ≤ tree.topLimit) :
    ∀ (rows : List (Option DataRow)) (matchedRows : List DataRow) (st : ParserState)
      (mAll : List DataRow) (stU : ParserState),
      (matchedRows.length : Int) ≤ tree.topLimit →
      evaluateScanNoBreak tree signalIDColumnIndex rows matchedRows st = .ok (mAll, stU) →
      ∃ stL, evaluateScan tree signalIDColumnIndex rows matchedRows st =
        .ok (mAll.take tree.topLimit.toNat, stL) := by
  intro rows
  induction rows with
  | nil =>
    intro matchedRows st mAll stU hlen h
    simp only [evaluateScanNoBreak, Except.ok.injEq, Prod.mk.injEq] at h
    obtain ⟨h1, h2⟩ := h
    refine ⟨st, ?_⟩
    have ht : mAll.take tree.topLimit.toNat = matchedRows := by
      rw [← h1]
      exact List.take_of_length_le (by omega)
    rw [ht]
    rfl
  | cons orow rest ih =>
    intro matchedRows st mAll stU hlen h
    by_cases hbreak : tree.topLimit ≤ (matchedRows.length : Int)
    · obtain ⟨d, hd⟩ :=
        evaluateScanNoBreak_prefix tree signalIDColumnIndex (orow :: rest)
          matchedRows st mAll stU h
      refine ⟨st, ?_⟩
      rw [evaluateScan_break tree signalIDColumnIndex _ matchedRows st hL hbreak, hd]
      have hlen' : matchedRows.length = tree.topLimit.toNat := by omega
      rw [← hlen', List.take_left]
    · have hcond : ¬(-1 < tree.topLimit ∧ tree.topLimit ≤ (matchedRows.length : Int)) := by
        intro hc
        exact hbreak hc.2
      rcases orow with _ | row
      · simp only [evaluateScanNoBreak] at h
        obtain ⟨stL, hscan⟩ := ih matchedRows st mAll stU hlen h
        refine ⟨stL, ?_⟩
        simp only [evaluateScan]
        rw [if_neg hcond]
        exact hscan
      · simp only [evaluateScanNoBreak] at h
        rcases hs : scanRowStep tree signalIDColumnIndex row st with e | ⟨isMatch, st1⟩ <;>
          simp only [hs] at h
        · cases h
        · have hlen1 : (((if isMatch = true then matchedRows ++ [row]
              else matchedRows)).length : Int) ≤ tree.topLimit := by
            cases isMatch <;> simp <;> omega
          obtain ⟨stL, hscan⟩ := ih _ st1 mAll stU hlen1 h
          refine ⟨stL, ?_⟩
          simp only [evaluateScan]
          rw [if_neg hcond]
          simp only [hs]
          exact hscan

/-- With `TopLimit = -1` the break never fires: the scan visits every row. -/
theorem evaluateScan_noLimit (tree : ExpressionTree) (signalIDColumnIndex : Nat)
    (hL : tree.topLimit = -1) :
    ∀ (rows : List (Option DataRow)) (matchedRows : List DataRow) (st : ParserState),
      evaluateScan tree signalIDColumnIndex rows matchedRows st =
        evaluateScanNoBreak tree signalIDColumnIndex rows matchedRows st := by
  intro rows
  induction rows with
  | nil => intro matchedRows st; rfl
  | cons orow rest ih =>
    intro matchedRows st
    simp only [evaluateScan, evaluateScanNoBreak]
    rw [if_neg (by rw [hL]; omega)]
    rcases orow with _ | row
    · exact ih matchedRows st
    · rcases hs : scanRowStep tree signalIDColumnIndex row st with e | p <;> simp only [hs]
      rcases p with ⟨isMatch, st1⟩
      exact ih _ st1

/-- Claim C4 (confirmed). For a statement with `TopLimit ≥ 0` the scan stops
as soon as the matched set reaches `TopLimit` rows; the matched set is
exactly the first `TopLimit` rows, in table order, of what an unlimited scan
would match, and the ORDER BY sort is applied only to that already-truncated
set (the appended result is a permutation of it). With `TopLimit = -1` the
scan is identical to the break-free scan of every row. -/
theorem c4_top_limit (sortImpl : SortImpl) (tree : ExpressionTree)
    (signalIDColumnIndex : Nat) (st : ParserState)
    (mAll : List DataRow) (stU : ParserState)
    (hsort : SortImplPerm sortImpl)
    (hres : resolveSignalIDColumn st tree = .ok signalIDColumnIndex)
    (hrun : evaluateScanNoBreak tree signalIDColumnIndex tree.measurements.rows [] st =
      .ok (mAll, stU)) :
    (0 ≤ tree.topLimit →
      (∀ rows matchedRows stx, tree.topLimit ≤ (matchedRows.length : Int) →
        evaluateScan tree signalIDColumnIndex rows matchedRows stx = .ok (matchedRows, stx)) ∧
      ∃ stL sorted,
        evaluateScan tree signalIDColumnIndex tree.measurements.rows [] st =
          .ok (mAll.take tree.topLimit.toNat, stL) ∧
        sorted.Perm (mAll.take tree.topLimit.toNat) ∧
        evaluateTree sortImpl st tree = .ok (appendMatched signalIDColumnIndex sorted stL)) ∧
    (tree.topLimit = -1 →
      evaluateScan tree signalIDColumnIndex tree.measurements.rows [] st =
        evaluateScanNoBreak tree signalIDColumnIndex tree.measurements.rows [] st) := by
  constructor
  · intro hL
    constructor
    · intro rows matchedRows stx hfull
      exact evaluateScan_break tree signalIDColumnIndex rows matchedRows stx hL hfull
    · obtain ⟨stL, hscan⟩ :=
        evaluateScan_take tree signalIDColumnIndex hL tree.measurements.rows [] st mAll stU
          (by simpa using hL) hrun
      by_cases hemp : (mAll.take tree.topLimit.toNat).isEmpty = true
      · refine ⟨stL, [], hscan, ?_, ?_⟩
        · rw [List.isEmpty_iff.mp hemp]
        · simp only [evaluateTree, hres, hscan]
          rw [if_pos hemp]
          rfl
      · refine ⟨stL,
          if tree.orderByTerms.isEmpty then mAll.take tree.topLimit.toNat
          else sortImpl (rowCompareLess tree.orderByTerms) (mAll.take tree.topLimit.toNat),
          hscan, ?_, ?_⟩
        · by_cases ho : tree.orderByTerms.isEmpty = true
          · rw [if_pos ho]
          · rw [if_neg ho]
            exact hsort (rowCompareLess tree.orderByTerms) (mAll.take tree.topLimit.toNat)
        · simp only [evaluateTree, hres, hscan]
          rw [if_neg hemp]
  · intro hL
    exact evaluateScan_noLimit tree signalIDColumnIndex hL tree.measurements.rows [] st

/-! ## Claim C5: the signal-ID sequence/set invariant -/

/-- Effect of one row step on the parser state: only the signal-ID set can
change, and it gains exactly the row's fresh, non-zero signal ID when the
row is matched under signal-ID tracking. -/
theorem scanRowStep_spec (tree : ExpressionTree) (signalIDColumnIndex : Nat)
    (row : DataRow) (st : ParserState) (isMatch : Bool) (st1 : ParserState)
    (h : scanRowStep tree signalIDColumnIndex row st = .ok (isMatch, st1)) :
    st1.filteredSignalIDs = st.filteredSignalIDs ∧
    st1.filteredRows = st.filteredRows ∧
    st1.trackFilteredSignalIDs = st.trackFilteredSignalIDs ∧
    st1.trackFilteredRows = st.trackFilteredRows ∧
    ((isMatch = true ∧ st.trackFilteredSignalIDs = true) →
      st1.filteredSignalIDSet =
        rowSignalID signalIDColumnIndex row :: st.filteredSignalIDSet ∧
      rowSignalID signalIDColumnIndex row ≠ 0 ∧
      rowSignalID signalIDColumnIndex row ∉ st.filteredSignalIDSet) ∧
    (¬(isMatch = true ∧ st.trackFilteredSignalIDs = true) →
      st1.filteredSignalIDSet = st.filteredSignalIDSet) := by
  unfold scanRowStep at h
  rcases hre : tree.rootEval row with e | v <;> simp only [hre] at h
  · cases h
  · by_cases hvt : v.valueType ≠ ExpressionValueType.boolean
    · rw [if_pos hvt] at h
      cases h
    · rw [if_neg hvt] at h
      by_cases hvb : v.valueAsBoolean = true
      · rw [if_pos hvb] at h
        by_cases hts : st.trackFilteredSignalIDs = true
        · rw [if_pos hts] at h
          rcases hg : valueAsGuid (row.cell signalIDColumnIndex) with _ | g <;>
            simp only [hg] at h
          · simp only [Except.ok.injEq, Prod.mk.injEq] at h
            obtain ⟨hm, hst⟩ := h
            subst hm
            subst hst
            exact ⟨rfl, rfl, rfl, rfl,
              fun hcon => absurd hcon.1 Bool.false_ne_true, fun _ => rfl⟩
          · by_cases hfresh : g ≠ 0 ∧ g ∉ st.filteredSignalIDSet
            · rw [if_pos hfresh] at h
              simp only [Except.ok.injEq, Prod.mk.injEq] at h
              obtain ⟨hm, hst⟩ := h
              subst hm
              subst hst
              have hsid : rowSignalID signalIDColumnIndex row = g := by
                simp [rowSignalID, hg]
              refine ⟨rfl, rfl, rfl, rfl, ?_, ?_⟩
              · intro _
                rw [hsid]
                exact ⟨rfl, hfresh.1, hfresh.2⟩
              · intro hcon
                exact absurd ⟨rfl, hts⟩ hcon
            · rw [if_neg hfresh] at h
              simp only [Except.ok.injEq, Prod.mk.injEq] at h
              obtain ⟨hm, hst⟩ := h
              subst hm
              subst hst
              exact ⟨rfl, rfl, rfl, rfl,
                fun hcon => absurd hcon.1 Bool.false_ne_true, fun _ => rfl⟩
        · rw [if_neg hts] at h
          simp only [Except.ok.injEq, Prod.mk.injEq] at h
          obtain ⟨hm, hst⟩ := h
          subst hm
          subst hst
          exact ⟨rfl, rfl, rfl, rfl, fun hcon => absurd hcon.2 hts, fun _ => rfl⟩
      · have hvb' : v.valueAsBoolean = false := by
          revert hvb
          cases v.valueAsBoolean <;> simp
        rw [if_neg (by simp [hvb'])] at h
        simp only [Except.ok.injEq, Prod.mk.injEq] at h
        obtain ⟨hm, hst⟩ := h
        subst hm
        subst hst
        exact ⟨rfl, rfl, rfl, rfl,
          fun hcon => absurd hcon.1 Bool.false_ne_true, fun _ => rfl⟩

/-- Effect of a successful scan: the matched accumulator grows by some rows
`d`, the sequence/row accumulators are untouched, and under signal-ID
tracking the set gains exactly the distinct, fresh, non-zero signal IDs of
`d`. -/
theorem evaluateScan_ok_spec (tree : ExpressionTree) (signalIDColumnIndex : Nat) :
    ∀ (rows : List (Option DataRow)) (matchedRows : List DataRow) (st : ParserState)
      (mOut : List DataRow) (stOut : ParserState),
      evaluateScan tree signalIDColumnIndex rows matchedRows st = .ok (mOut, stOut) →
      ∃ d, mOut = matchedRows ++ d ∧
        stOut.filteredSignalIDs = st.filteredSignalIDs ∧
        stOut.filteredRows = st.filteredRows ∧
        stOut.trackFilteredSignalIDs = st.trackFilteredSignalIDs ∧
        stOut.trackFilteredRows = st.trackFilteredRows ∧
        (st.trackFilteredSignalIDs = true →
          stOut.filteredSignalIDSet =
            (d.map (rowSignalID signalIDColumnIndex)).reverse ++ st.filteredSignalIDSet ∧
          (d.map (rowSignalID signalIDColumnIndex)).Nodup ∧
          (∀ g ∈ d.map (rowSignalID signalIDColumnIndex),
            g ≠ 0 ∧ g ∉ st.filteredSignalIDSet)) ∧
        (st.trackFilteredSignalIDs = false →
          stOut.filteredSignalIDSet = st.filteredSignalIDSet) := by
  intro rows
  induction rows with
  | nil =>
    intro matchedRows st mOut stOut h
    simp only [evaluateScan, Except.ok.injEq, Prod.mk.injEq] at h
    obtain ⟨h1, h2⟩ := h
    subst h2
    exact ⟨[], by simp [← h1], rfl, rfl, rfl, rfl,
      fun _ => ⟨by simp, by simp, by simp⟩, fun _ => rfl⟩
  | cons orow rest ih =>
    intro matchedRows st mOut stOut h
    simp only [evaluateScan] at h
    by_cases hbreak : (-1 < tree.topLimit ∧ tree.topLimit ≤ ((matchedRows.length : Int)))
    · rw [if_pos hbreak] at h
      simp only [Except.ok.injEq, Prod.mk.injEq] at h
      obtain ⟨h1, h2⟩ := h
      subst h2
      exact ⟨[], by simp [← h1], rfl, rfl, rfl, rfl,
        fun _ => ⟨by simp, by simp, by simp⟩, fun _ => rfl⟩
    · rw [if_neg hbreak] at h
      rcases orow with _ | row
      · exact ih matchedRows st mOut stOut h
      · rcases hs : scanRowStep tree signalIDColumnIndex row st with e | ⟨isMatch, st1⟩ <;>
          simp only [hs] at h
        · cases h
        · obtain ⟨f1, f2, f3, f4, fmatch, fnon⟩ :=
            scanRowStep_spec tree signalIDColumnIndex row st isMatch st1 hs
          cases isMatch
          · simp only [Bool.false_eq_true, if_false] at h
            have hset : st1.filteredSignalIDSet = st.filteredSignalIDSet :=
              fnon (fun hcon => Bool.false_ne_true hcon.1)
            obtain ⟨d, hd, g1, g2, g3, g4, g5, g6⟩ := ih matchedRows st1 mOut stOut h
            refine ⟨d, hd, by rw [g1, f1], by rw [g2, f2], by rw [g3, f3],
              by rw [g4, f4], ?_, ?_⟩
            · intro htr
              have htr1 : st1.trackFilteredSignalIDs = true := by rw [f3, htr]
              obtain ⟨m1, m2, m3⟩ := g5 htr1
              refine ⟨by rw [m1, hset], m2, fun g hg => ?_⟩
              obtain ⟨u1, u2⟩ := m3 g hg
              exact ⟨u1, by rwa [hset] at u2⟩
            · intro htr
              have htr1 : st1.trackFilteredSignalIDs = false := by rw [f3, htr]
              rw [g6 htr1, hset]
          · simp only [if_true] at h
            obtain ⟨d, hd, g1, g2, g3, g4, g5, g6⟩ := ih (matchedRows ++ [row]) st1 mOut stOut h
            refine ⟨row :: d, by simpa using hd, by rw [g1, f1], by rw [g2, f2],
              by rw [g3, f3], by rw [g4, f4], ?_, ?_⟩
            · intro htr
              obtain ⟨m1, m2, m3⟩ := fmatch ⟨rfl, htr⟩
              have htr1 : st1.trackFilteredSignalIDs = true := by rw [f3, htr]
              obtain ⟨k1, k2, k3⟩ := g5 htr1
              refine ⟨?_, ?_, ?_⟩
              · rw [k1, m1]
                simp
              · simp only [List.map_cons, List.nodup_cons]
                refine ⟨?_, k2⟩
                intro hmem
                have := (k3 _ hmem).2
                rw [m1] at this
                exact this (List.mem_cons_self _ _)
              · intro g hg
                simp only [List.map_cons, List.mem_cons] at hg
                rcases hg with hg | hg
                · subst hg
                  exact ⟨m2, m3⟩
                · obtain ⟨u1, u2⟩ := k3 g hg
                  rw [m1] at u2
                  exact ⟨u1, fun hc => u2 (List.mem_cons_of_mem _ hc)⟩
            · intro htr
              have hset : st1.filteredSignalIDSet = st.filteredSignalIDSet :=
                fnon (fun hcon => by rw [htr] at hcon; exact Bool.false_ne_true hcon.2)
              have htr1 : st1.trackFilteredSignalIDs = false := by rw [f3, htr]
              rw [g6 htr1, hset]

/-- Effect of a failing scan: the sequence and row accumulators are as they
were, and the set has only grown by fresh, non-zero, distinct signal IDs
inserted before the throw. -/
theorem evaluateScan_error_spec (tree : ExpressionTree) (signalIDColumnIndex : Nat) :
    ∀ (rows : List (Option DataRow)) (matchedRows : List DataRow) (st : ParserState)
      (e : String) (stErr : ParserState),
      evaluateScan tree signalIDColumnIndex rows matchedRows st = .error (e, stErr) →
      stErr.filteredSignalIDs = st.filteredSignalIDs ∧
      stErr.filteredRows = st.filteredRows ∧
      stErr.trackFilteredSignalIDs = st.trackFilteredSignalIDs ∧
      stErr.trackFilteredRows = st.trackFilteredRows ∧
      ∃ ns, stErr.filteredSignalIDSet = ns ++ st.filteredSignalIDSet ∧ ns.Nodup ∧
        (∀ g ∈ ns, g ≠ 0 ∧ g ∉ st.filteredSignalIDSet) := by
  intro rows
  induction rows with
  | nil =>
    intro matchedRows st e stErr h
    cases h
  | cons orow rest ih =>
    intro matchedRows st e stErr h
    simp only [evaluateScan] at h
    by_cases hbreak : (-1 < tree.topLimit ∧ tree.topLimit ≤ ((matchedRows.length : Int)))
    · rw [if_pos hbreak] at h
      cases h
    · rw [if_neg hbreak] at h
      rcases orow with _ | row
      · exact ih matchedRows st e stErr h
      · rcases hs : scanRowStep tree signalIDColumnIndex row st with e0 | ⟨isMatch, st1⟩ <;>
          simp only [hs] at h
        · simp only [Except.error.injEq, Prod.mk.injEq] at h
          obtain ⟨h1, h2⟩ := h
          subst h2
          exact ⟨rfl, rfl, rfl, rfl, [], by simp, by simp, by simp⟩
        · obtain ⟨f1, f2, f3, f4, fmatch, fnon⟩ :=
            scanRowStep_spec tree signalIDColumnIndex row st isMatch st1 hs
          obtain ⟨g1, g2, g3, g4, ns, hns, hnsd, hfr⟩ := ih _ st1 e stErr h
          by_cases hinserted : isMatch = true ∧ st.trackFilteredSignalIDs = true
          · obtain ⟨m1, m2, m3⟩ := fmatch hinserted
            refine ⟨by rw [g1, f1], by rw [g2, f2], by rw [g3, f3], by rw [g4, f4],
              ns ++ [rowSignalID signalIDColumnIndex row], ?_, ?_, ?_⟩
            · rw [hns, m1]
              simp
            · have hnotin : rowSignalID signalIDColumnIndex row ∉ ns := by
                intro hmem
                have := (hfr _ hmem).2
                rw [m1] at this
                exact this (List.mem_cons_self _ _)
              rw [List.nodup_append]
              refine ⟨hnsd, by simp, ?_⟩
              intro a ha hb
              rw [List.mem_singleton] at hb
              subst hb
              exact hnotin ha
            · intro g hg
              rw [List.mem_append, List.mem_singleton] at hg
              rcases hg with hg | hg
              · obtain ⟨u1, u2⟩ := hfr g hg
                rw [m1] at u2
                exact ⟨u1, fun hc => u2 (List.mem_cons_of_mem _ hc)⟩
              · subst hg
                exact ⟨m2, m3⟩
          · have hset : st1.filteredSignalIDSet = st.filteredSignalIDSet := fnon hinserted
            refine ⟨by rw [g1, f1], by rw [g2, f2], by rw [g3, f3], by rw [g4, f4],
              ns, by rw [hns, hset], hnsd, ?_⟩
            intro g hg
            obtain ⟨u1, u2⟩ := hfr g hg
            exact ⟨u1, by rwa [hset] at u2⟩

/-- Effect of the append phase: the sequence gains the signal IDs of the
sorted rows (when tracked), the row accumulator gains the sorted rows (when
tracked), and nothing else changes. -/
theorem appendMatched_spec (signalIDColumnIndex : Nat) :
    ∀ (sorted : List DataRow) (st : ParserState),
      (appendMatched signalIDColumnIndex sorted st).filteredSignalIDs =
        st.filteredSignalIDs ++
          (if st.trackFilteredSignalIDs then
            sorted.map (rowSignalID signalIDColumnIndex) else []) ∧
      (appendMatched signalIDColumnIndex sorted st).filteredRows =
        st.filteredRows ++ (if st.trackFilteredRows then sorted else []) ∧
      (appendMatched signalIDColumnIndex sorted st).filteredSignalIDSet =
        st.filteredSignalIDSet ∧
      (appendMatched signalIDColumnIndex sorted st).trackFilteredSignalIDs =
        st.trackFilteredSignalIDs ∧
      (appendMatched signalIDColumnIndex sorted st).trackFilteredRows =
        st.trackFilteredRows := by
  intro sorted
  induction sorted with
  | nil =>
    intro st
    refine ⟨?_, ?_, rfl, rfl, rfl⟩ <;> split_ifs <;> simp [appendMatched]
  | cons row rest ih =>
    intro st
    by_cases hts : st.trackFilteredSignalIDs = true <;>
      by_cases htr : st.trackFilteredRows = true
    · have hstep : appendMatched signalIDColumnIndex (row :: rest) st =
          appendMatched signalIDColumnIndex rest
            { st with
              filteredSignalIDs :=
                st.filteredSignalIDs ++ [rowSignalID signalIDColumnIndex row]
              filteredRows := st.filteredRows ++ [row] } := by
        simp only [appendMatched, List.foldl_cons]
        congr 1
        simp [hts, htr]
      rw [hstep]
      obtain ⟨i1, i2, i3, i4, i5⟩ := ih { st with
        filteredSignalIDs := st.filteredSignalIDs ++ [rowSignalID signalIDColumnIndex row]
        filteredRows := st.filteredRows ++ [row] }
      refine ⟨?_, ?_, ?_, ?_, ?_⟩ <;> simp_all [hts, htr]
    · have hstep : appendMatched signalIDColumnIndex (row :: rest) st =
          appendMatched signalIDColumnIndex rest
            { st with
              filteredSignalIDs :=
                st.filteredSignalIDs ++ [rowSignalID signalIDColumnIndex row] } := by
        simp only [appendMatched, List.foldl_cons]
        congr 1
        simp [hts, htr]
      rw [hstep]
      obtain ⟨i1, i2, i3, i4, i5⟩ := ih { st with
        filteredSignalIDs := st.filteredSignalIDs ++ [rowSignalID signalIDColumnIndex row] }
      refine ⟨?_, ?_, ?_, ?_, ?_⟩ <;> simp_all [hts, htr]
    · have hstep : appendMatched signalIDColumnIndex (row :: rest) st =
          appendMatched signalIDColumnIndex rest
            { st with filteredRows := st.filteredRows ++ [row] } := by
        simp only [appendMatched, List.foldl_cons]
        congr 1
        simp [hts, htr]
      rw [hstep]
      obtain ⟨i1, i2, i3, i4, i5⟩ := ih { st with filteredRows := st.filteredRows ++ [row] }
      refine ⟨?_, ?_, ?_, ?_, ?_⟩ <;> simp_all [hts, htr]
    · have hstep : appendMatched signalIDColumnIndex (row :: rest) st =
          appendMatched signalIDColumnIndex rest st := by
        simp only [appendMatched, List.foldl_cons]
        congr 1
        simp [hts, htr]
      rw [hstep]
      obtain ⟨i1, i2, i3, i4, i5⟩ := ih st
      refine ⟨?_, ?_, ?_, ?_, ?_⟩ <;> simp_all [hts, htr]

theorem nodup_of_length_le_one {α : Type} (l : List α) (h : l.length ≤ 1) : l.Nodup := by
  match l with
  | [] => exact List.nodup_nil
  | [a] => simp
  | a :: b :: t => simp at h

theorem guidDirectStep_seqSetEqual (st : ParserState) (g : Nat) (h : seqSetEqual st) :
    seqSetEqual (guidDirectStep st g) := by
  obtain ⟨⟨hn1, hn2, h0, hsub⟩, hsup⟩ := h
  unfold guidDirectStep
  split_ifs with hc
  · obtain ⟨htrack, hnz, hmem⟩ := hc
    refine ⟨⟨?_, ?_, ?_, ?_⟩, ?_⟩
    · rw [List.nodup_append]
      refine ⟨hn1, by simp, ?_⟩
      intro a ha hb
      rw [List.mem_singleton] at hb
      subst hb
      exact hmem (hsub a ha)
    · exact List.nodup_cons.mpr ⟨hmem, hn2⟩
    · intro hc0
      rcases List.mem_cons.mp hc0 with hc0 | hc0
      · exact hnz hc0.symm
      · exact h0 hc0
    · intro x hx
      rw [List.mem_append, List.mem_singleton] at hx
      rcases hx with hx | hx
      · exact List.mem_cons_of_mem _ (hsub x hx)
      · subst hx
        exact List.mem_cons_self _ _
    · intro x hx
      rcases List.mem_cons.mp hx with hx | hx
      · subst hx
        simp
      · rw [List.mem_append]
        exact Or.inl (hsup x hx)
  · exact ⟨⟨hn1, hn2, h0, hsub⟩, hsup⟩

theorem findMatchingRowLoop_accumulators (signalIDColumnIndex signalID : Nat) :
    ∀ (rows : List (Option DataRow)) (st : ParserState),
      (findMatchingRowLoop signalIDColumnIndex signalID rows st).filteredSignalIDs =
        st.filteredSignalIDs ∧
      (findMatchingRowLoop signalIDColumnIndex signalID rows st).filteredSignalIDSet =
        st.filteredSignalIDSet := by
  intro rows
  induction rows with
  | nil => intro st; exact ⟨rfl, rfl⟩
  | cons orow rest ih =>
    intro st
    rcases orow with _ | row
    · simpa [findMatchingRowLoop] using ih st
    · simp only [findMatchingRowLoop]
      rcases hgv : valueAsGuid (row.cell signalIDColumnIndex) with _ | gg <;>
        simp only [hgv]
      · exact ih st
      · split_ifs
        · exact ⟨rfl, rfl⟩
        · exact ih st

theorem findMatchingRowLoop_seqSetEqual (signalIDColumnIndex signalID : Nat)
    (rows : List (Option DataRow)) (st : ParserState) (h : seqSetEqual st) :
    seqSetEqual (findMatchingRowLoop signalIDColumnIndex signalID rows st) := by
  obtain ⟨e1, e2⟩ := findMatchingRowLoop_accumulators signalIDColumnIndex signalID rows st
  unfold seqSetEqual seqSetAligned at h ⊢
  rw [e1, e2]
  exact h

theorem mapMeasurement_seqSetEqual (st : ParserState) (measurements : DataTable)
    (signalIDColumnIndex : Nat) (columnName mappingValue : String)
    (h : seqSetEqual st) :
    seqSetEqual (mapMeasurement st measurements signalIDColumnIndex columnName mappingValue) := by
  obtain ⟨⟨hn1, hn2, h0, hsub⟩, hsup⟩ := h
  unfold mapMeasurement
  rcases hcol : measurements.column columnName with _ | column
  · exact ⟨⟨hn1, hn2, h0, hsub⟩, hsup⟩
  · obtain ⟨appRows, appSids, appSet, ⟨w1, w2, w3, _, _⟩, _, hl1, hl2, _, happ, hfr⟩ :=
      mapMeasurementLoop_spec signalIDColumnIndex column.index mappingValue
        measurements.rows st
    subst happ
    refine ⟨⟨?_, ?_, ?_, ?_⟩, ?_⟩
    · rw [w2, List.nodup_append]
      refine ⟨hn1, nodup_of_length_le_one _ hl1, ?_⟩
      intro a ha hb
      exact (hfr a hb).2 (hsub a ha)
    · rw [w3, List.nodup_append]
      refine ⟨nodup_of_length_le_one _ hl2, hn2, ?_⟩
      intro a ha hb
      exact (hfr a ha).2 hb
    · rw [w3, List.mem_append]
      intro hc
      rcases hc with hc | hc
      · exact (hfr 0 hc).1 rfl
      · exact h0 hc
    · intro x hx
      rw [w2, List.mem_append] at hx
      rw [w3, List.mem_append]
      rcases hx with hx | hx
      · exact Or.inr (hsub x hx)
      · exact Or.inl hx
    · intro x hx
      rw [w3, List.mem_append] at hx
      rw [w2, List.mem_append]
      rcases hx with hx | hx
      · exact Or.inr hx
      · exact Or.inl (hsup x hx)

theorem exitIdentifierStatement_seqSetEqual (st : ParserState) (stmt : IdentifierStatement)
    (h : seqSetEqual st) : seqSetEqual (exitIdentifierStatement st stmt) := by
  cases stmt with
  | guidLiteral g =>
    have h1 := guidDirectStep_seqSetEqual st g h
    simp only [exitIdentifierStatement]
    split
    · exact h1
    · split
      · exact h1
      · split
        · exact findMatchingRowLoop_seqSetEqual _ _ _ _ h1
        · exact h1
  | measurementKeyLiteral key =>
    simp only [exitIdentifierStatement]
    split
    · exact h
    · split
      · exact h
      · split
        · exact findMatchingRowLoop_seqSetEqual _ _ _ _ h
        · exact mapMeasurement_seqSetEqual _ _ _ _ _ h
  | pointTagLiteral tag =>
    simp only [exitIdentifierStatement]
    split
    · exact h
    · split
      · exact h
      · split
        · exact findMatchingRowLoop_seqSetEqual _ _ _ _ h
        · exact mapMeasurement_seqSetEqual _ _ _ _ _ h

theorem resolveSignalIDColumn_error (st : ParserState) (tree : ExpressionTree)
    (e : String) (stE : ParserState)
    (h : resolveSignalIDColumn st tree = .error (e, stE)) : stE = st := by
  unfold resolveSignalIDColumn at h
  split_ifs at h
  · rcases h1 : getMeasurementTableIDFields st tree.measurements.name with _ | f <;>
      simp only [h1] at h
    · simp only [Except.error.injEq, Prod.mk.injEq] at h
      exact h.2.symm
    · rcases h2 : tree.measurements.column f.signalIDFieldName with _ | c <;>
        simp only [h2] at h
      · simp only [Except.error.injEq, Prod.mk.injEq] at h
        exact h.2.symm
      · cases h

theorem evaluateTree_seqSet (sortImpl : SortImpl) (hsort : SortImplPerm sortImpl)
    (st : ParserState) (tree : ExpressionTree) (h : seqSetEqual st) :
    (∀ stOut, evaluateTree sortImpl st tree = .ok stOut → seqSetEqual stOut) ∧
    (∀ e stErr, evaluateTree sortImpl st tree = .error (e, stErr) → seqSetAligned stErr) := by
  rcases hres : resolveSignalIDColumn st tree with ⟨e0, stE⟩ | sidIdx
  · refine ⟨?_, ?_⟩
    · intro stOut hout
      simp only [evaluateTree, hres] at hout
      cases hout
    · intro e stErr herr
      simp only [evaluateTree, hres, Except.error.injEq, Prod.mk.injEq] at herr
      obtain ⟨_, h2⟩ := herr
      have h3 := resolveSignalIDColumn_error st tree e0 stE hres
      rw [← h2, h3]
      exact h.1
  · rcases hscan : evaluateScan tree sidIdx tree.measurements.rows [] st with ⟨e0, stE⟩ |
      ⟨mOut, st1⟩
    · refine ⟨?_, ?_⟩
      · intro stOut hout
        simp only [evaluateTree, hres, hscan] at hout
        cases hout
      · intro e stErr herr
        simp only [evaluateTree, hres, hscan, Except.error.injEq, Prod.mk.injEq] at herr
        obtain ⟨_, h2⟩ := herr
        obtain ⟨q1, q2, q3, q4, ns, hns, hnsd, hfr⟩ :=
          evaluateScan_error_spec tree sidIdx tree.measurements.rows [] st e0 stE hscan
        obtain ⟨⟨hn1, hn2, h0, hsubm⟩, hsup⟩ := h
        rw [← h2]
        refine ⟨by rw [q1]; exact hn1, ?_, ?_, ?_⟩
        · rw [hns, List.nodup_append]
          refine ⟨hnsd, hn2, ?_⟩
          intro a ha hb
          exact (hfr a ha).2 hb
        · rw [hns, List.mem_append]
          intro hc
          rcases hc with hc | hc
          · exact (hfr 0 hc).1 rfl
          · exact h0 hc
        · intro g hg
          rw [q1] at hg
          rw [hns, List.mem_append]
          exact Or.inr (hsubm g hg)
    · obtain ⟨d, hd0, q1, q2, q3, q4, qtrue, qfalse⟩ :=
        evaluateScan_ok_spec tree sidIdx tree.measurements.rows [] st mOut st1 hscan
      have hd : mOut = d := by simpa using hd0
      subst hd
      refine ⟨?_, ?_⟩
      · intro stOut hout
        simp only [evaluateTree, hres, hscan] at hout
        by_cases hemp : mOut.isEmpty = true
        · rw [if_pos hemp] at hout
          injection hout with hout1
          subst hout1
          have hdnil : mOut = [] := List.isEmpty_iff.mp hemp
          subst hdnil
          obtain ⟨⟨hn1, hn2, h0, hsubm⟩, hsup⟩ := h
          have hset : st1.filteredSignalIDSet = st.filteredSignalIDSet := by
            cases hb : st.trackFilteredSignalIDs
            · exact qfalse hb
            · simpa using (qtrue hb).1
          exact ⟨⟨by rw [q1]; exact hn1, by rw [hset]; exact hn2, by rw [hset]; exact h0,
            fun g hg => by rw [q1] at hg; rw [hset]; exact hsubm g hg⟩,
            fun g hg => by rw [hset] at hg; rw [q1]; exact hsup g hg⟩
        · rw [if_neg hemp] at hout
          injection hout with hout1
          subst hout1
          have hperm : (if tree.orderByTerms.isEmpty then mOut
              else sortImpl (rowCompareLess tree.orderByTerms) mOut).Perm mOut := by
            by_cases ho : tree.orderByTerms.isEmpty = true
            · rw [if_pos ho]
            · rw [if_neg ho]
              exact hsort (rowCompareLess tree.orderByTerms) mOut
          obtain ⟨a1, a2, a3, a4, a5⟩ := appendMatched_spec sidIdx
            (if tree.orderByTerms.isEmpty then mOut
              else sortImpl (rowCompareLess tree.orderByTerms) mOut) st1
          obtain ⟨⟨hn1, hn2, h0, hsubm⟩, hsup⟩ := h
          cases hb : st.trackFilteredSignalIDs
          · have hb1 : st1.trackFilteredSignalIDs = false := by rw [q3, hb]
            have hset : st1.filteredSignalIDSet = st.filteredSignalIDSet := qfalse hb
            rw [hb1] at a1
            simp only [Bool.false_eq_true, if_false, List.append_nil] at a1
            exact ⟨⟨by rw [a1, q1]; exact hn1, by rw [a3, hset]; exact hn2,
              by rw [a3, hset]; exact h0,
              fun g hg => by rw [a1, q1] at hg; rw [a3, hset]; exact hsubm g hg⟩,
              fun g hg => by rw [a3, hset] at hg; rw [a1, q1]; exact hsup g hg⟩
          · have hb1 : st1.trackFilteredSignalIDs = true := by rw [q3, hb]
            obtain ⟨m1, m2, m3⟩ := qtrue hb
            rw [hb1] at a1
            simp only [if_true] at a1
            have hmemmap : ∀ g, g ∈ (if tree.orderByTerms.isEmpty then mOut
                else sortImpl (rowCompareLess tree.orderByTerms) mOut).map
                  (rowSignalID sidIdx) ↔
                g ∈ mOut.map (rowSignalID sidIdx) := by
              intro g
              constructor
              · intro hg
                exact (hperm.map (rowSignalID sidIdx)).mem_iff.mp hg
              · intro hg
                exact (hperm.map (rowSignalID sidIdx)).mem_iff.mpr hg
            refine ⟨⟨?_, ?_, ?_, ?_⟩, ?_⟩
            · rw [a1, q1, List.nodup_append]
              refine ⟨hn1, ?_, ?_⟩
              · exact ((hperm.map (rowSignalID sidIdx)).nodup_iff).mpr m2
              · intro a ha hb2
                have := (m3 a ((hmemmap a).mp hb2)).2
                exact this (hsubm a ha)
            · rw [a3, m1, List.nodup_append]
              refine ⟨List.nodup_reverse.mpr m2, hn2, ?_⟩
              intro a ha hb2
              rw [List.mem_reverse] at ha
              exact (m3 a ha).2 hb2
            · rw [a3, m1, List.mem_append, List.mem_reverse]
              intro hc
              rcases hc with hc | hc
              · exact (m3 0 hc).1 rfl
              · exact h0 hc
            · intro g hg
              rw [a1, q1, List.mem_append] at hg
              rw [a3, m1, List.mem_append, List.mem_reverse]
              rcases hg with hg | hg
              · exact Or.inr (hsubm g hg)
              · exact Or.inl ((hmemmap g).mp hg)
            · intro g hg
              rw [a3, m1, List.mem_append, List.mem_reverse] at hg
              rw [a1, q1, List.mem_append]
              rcases hg with hg | hg
              · exact Or.inr ((hmemmap g).mpr hg)
              · exact Or.inl (hsup g hg)
      · intro e stErr herr
        simp only [evaluateTree, hres, hscan] at herr
        split_ifs at herr

theorem evaluateTrees_seqSet (sortImpl : SortImpl) (hsort : SortImplPerm sortImpl) :
    ∀ (trees : List ExpressionTree) (st : ParserState), seqSetEqual st →
      (∀ stOut, evaluateTrees sortImpl trees st = .ok stOut → seqSetEqual stOut) ∧
      (∀ e stErr, evaluateTrees sortImpl trees st = .error (e, stErr) →
        seqSetAligned stErr) := by
  intro trees
  induction trees with
  | nil =>
    intro st h
    refine ⟨?_, ?_⟩
    · intro stOut hout
      injection hout with h1
      rw [← h1]
      exact h
    · intro e stErr herr
      cases herr
  | cons tree rest ih =>
    intro st h
    obtain ⟨tok, terr⟩ := evaluateTree_seqSet sortImpl hsort st tree h
    refine ⟨?_, ?_⟩
    · intro stOut hout
      simp only [evaluateTrees] at hout
      rcases htree : evaluateTree sortImpl st tree with ⟨e0, stE⟩ | st1 <;>
        simp only [htree] at hout
      · cases hout
      · exact (ih st1 (tok st1 htree)).1 stOut hout
    · intro e stErr herr
      simp only [evaluateTrees] at herr
      rcases htree : evaluateTree sortImpl st tree with ⟨e0, stE⟩ | st1 <;>
        simp only [htree] at herr
      · simp only [Except.error.injEq, Prod.mk.injEq] at herr
        obtain ⟨_, h2⟩ := herr
        rw [← h2]
        exact terr e0 stE htree
      · exact (ih st1 (tok st1 htree)).2 e stErr herr

theorem foldl_exitIdentifierStatement_seqSetEqual :
    ∀ (idStmts : List IdentifierStatement) (st : ParserState), seqSetEqual st →
      seqSetEqual (idStmts.foldl exitIdentifierStatement st) := by
  intro idStmts
  induction idStmts with
  | nil => intro st h; exact h
  | cons stmt rest ih =>
    intro st h
    exact ih (exitIdentifierStatement st stmt) (exitIdentifierStatement_seqSetEqual st stmt h)

theorem clearAccumulators_seqSetEqual (st : ParserState) :
    seqSetEqual (clearAccumulators st) := by
  refine ⟨⟨?_, ?_, ?_, ?_⟩, ?_⟩ <;> simp [clearAccumulators]

/-- Claim C5 (counterexample). An `Evaluate` that fails partway through a
statement leaves the signal-ID set ahead of the sequence: the first fixture
row matches (its signal ID enters the set), the second row's evaluation
fails, and the failed call leaves a one-element set next to an empty
sequence, so the two do not contain the same GUIDs. -/
theorem c5_partial_failure_counterexample :
    Evaluate sortImplId [] [treeFailSecond] (baseState true false) =
      Except.error ("divide by zero",
        { baseState true false with filteredSignalIDSet := [11] }) ∧
    ({ baseState true false with
        filteredSignalIDSet := [11] } : ParserState).filteredSignalIDSet.length = 1 ∧
    ({ baseState true false with
        filteredSignalIDSet := [11] } : ParserState).filteredSignalIDs.length = 0 := by
  refine ⟨rfl, rfl, rfl⟩

/-- Claim C5 (amended). After a successful `Evaluate` the signal-ID sequence
has no duplicates, never contains the all-zeros GUID, and holds exactly the
GUIDs of the set (in particular the same number of elements). After a failed
`Evaluate`, either nothing happened at all (no dataset was set) or the
sequence is still duplicate-free and zero-free but the set may be a strict
superset: the sequence/set correspondence is only an invariant of successful
calls. -/
theorem c5_signal_id_invariant (sortImpl : SortImpl) (hsort : SortImplPerm sortImpl)
    (idStmts : List IdentifierStatement) (trees : List ExpressionTree) (st : ParserState) :
    (∀ stOut, Evaluate sortImpl idStmts trees st = .ok stOut →
      seqSetEqual stOut ∧
      stOut.filteredSignalIDs.length = stOut.filteredSignalIDSet.length ∧
      stOut.filteredSignalIDs.Nodup ∧ 0 ∉ stOut.filteredSignalIDs) ∧
    (∀ e stErr, Evaluate sortImpl idStmts trees st = .error (e, stErr) →
      stErr = st ∨
        (stErr.filteredSignalIDs.Nodup ∧ 0 ∉ stErr.filteredSignalIDs ∧
          ∀ g ∈ stErr.filteredSignalIDs, g ∈ stErr.filteredSignalIDSet)) := by
  rcases hds : st.dataSet with _ | ds
  · refine ⟨?_, ?_⟩
    · intro stOut hout
      simp only [Evaluate, hds] at hout
      cases hout
    · intro e stErr herr
      simp only [Evaluate, hds, Except.error.injEq, Prod.mk.injEq] at herr
      exact Or.inl herr.2.symm
  · have hstart : seqSetEqual (idStmts.foldl exitIdentifierStatement (clearAccumulators st)) :=
      foldl_exitIdentifierStatement_seqSetEqual idStmts (clearAccumulators st)
        (clearAccumulators_seqSetEqual st)
    obtain ⟨tok, terr⟩ := evaluateTrees_seqSet sortImpl hsort trees
      (idStmts.foldl exitIdentifierStatement (clearAccumulators st)) hstart
    refine ⟨?_, ?_⟩
    · intro stOut hout
      simp only [Evaluate, hds] at hout
      have heq := tok stOut hout
      obtain ⟨⟨hn1, hn2, h0, hsubm⟩, hsup⟩ := heq
      refine ⟨⟨⟨hn1, hn2, h0, hsubm⟩, hsup⟩, ?_, hn1, fun hc => h0 (hsubm 0 hc)⟩
      have hfs : stOut.filteredSignalIDs.toFinset = stOut.filteredSignalIDSet.toFinset := by
        apply Finset.ext
        intro a
        simp only [List.mem_toFinset]
        exact ⟨fun ha => hsubm a ha, fun ha => hsup a ha⟩
      calc stOut.filteredSignalIDs.length = stOut.filteredSignalIDs.toFinset.card :=
            (List.toFinset_card_of_nodup hn1).symm
      _ = stOut.filteredSignalIDSet.toFinset.card := by rw [hfs]
      _ = stOut.filteredSignalIDSet.length := List.toFinset_card_of_nodup hn2
    · intro e stErr herr
      simp only [Evaluate, hds] at herr
      obtain ⟨hn1, hn2, h0, hsubm⟩ := terr e stErr herr
      exact Or.inr ⟨hn1, fun hc => h0 (hsubm 0 hc), hsubm⟩

/-- Claim C5 amended, applied at a concrete successful evaluation. -/
theorem c5_signal_id_invariant_witness :
    seqSetEqual stateC5Result ∧
    stateC5Result.filteredSignalIDs.length = stateC5Result.filteredSignalIDSet.length ∧
    stateC5Result.filteredSignalIDs.Nodup ∧ 0 ∉ stateC5Result.filteredSignalIDs :=
  (c5_signal_id_invariant sortImplId (fun _ l => List.Perm.refl l) [] [treeTopOne]
    (baseState true false)).1 stateC5Result rfl

/-- Claim C4, applied at a concrete `TOP 1` statement. -/
theorem c4_top_limit_witness :
    (0 ≤ treeTopOne.topLimit →
      (∀ rows matchedRows stx, treeTopOne.topLimit ≤ (matchedRows.length : Int) →
        evaluateScan treeTopOne 0 rows matchedRows stx = .ok (matchedRows, stx)) ∧
      ∃ stL sorted,
        evaluateScan treeTopOne 0 treeTopOne.measurements.rows [] (baseState false true) =
          .ok ([rowTagA, rowTagB].take treeTopOne.topLimit.toNat, stL) ∧
        sorted.Perm ([rowTagA, rowTagB].take treeTopOne.topLimit.toNat) ∧
        evaluateTree sortImplId (baseState false true) treeTopOne =
          .ok (appendMatched 0 sorted stL)) ∧
    (treeTopOne.topLimit = -1 →
      evaluateScan treeTopOne 0 treeTopOne.measurements.rows [] (baseState false true) =
        evaluateScanNoBreak treeTopOne 0 treeTopOne.measurements.rows []
          (baseState false true)) :=
  c4_top_limit sortImplId treeTopOne 0 (baseState false true) [rowTagA, rowTagB]
    (baseState false true) (fun _ l => List.Perm.refl l) rfl rfl

/-- Claim C6 (counterexample). A `NULL` literal as the WHERE root reduces to a
typed null of type Undefined at every row; the claim says such a row is a
quiet non-match, but the whole call fails: the type test (source line 291)
runs before any null handling, and `Undefined ≠ Boolean`. -/
theorem c6_null_root_counterexample :
    treeNullRoot.rootEval rowTagA = .ok nullUndefinedValue ∧
    nullUndefinedValue.isNull = true ∧
    Evaluate sortImplId [] [treeNullRoot] (baseState false true) =
      Except.error ("Final expression tree evaluation did not result in a boolean value",
        clearAccumulators (baseState false true)) :=
  ⟨rfl, rfl, rfl⟩

/-- Claim C6 (amended). When the root expression reduces to a value at a row:
a null of any type reads as `false` through `ValueAsBoolean`; a value whose
type is not Boolean makes the whole evaluation fail, even if it is null; a
Boolean-typed null is a quiet non-match; and a Boolean-typed value makes the
row match iff it reads as true (shown here with signal-ID tracking off, where
matching has no side condition). -/
theorem c6_root_value_amended (tree : ExpressionTree) (signalIDColumnIndex : Nat)
    (row : DataRow) (st : ParserState) (v : EvalValue)
    (heval : tree.rootEval row = .ok v) :
    (v.isNull = true → v.valueAsBoolean = false) ∧
    (v.valueType ≠ .boolean →
      scanRowStep tree signalIDColumnIndex row st =
        .error "Final expression tree evaluation did not result in a boolean value") ∧
    (v.valueType = .boolean → v.isNull = true →
      scanRowStep tree signalIDColumnIndex row st = .ok (false, st)) ∧
    (v.valueType = .boolean → v.valueAsBoolean = false →
      scanRowStep tree signalIDColumnIndex row st = .ok (false, st)) ∧
    (v.valueType = .boolean → v.valueAsBoolean = true →
      st.trackFilteredSignalIDs = false →
      scanRowStep tree signalIDColumnIndex row st = .ok (true, st)) := by
  refine ⟨?_, ?_, ?_, ?_, ?_⟩
  · intro hn
    simp [EvalValue.valueAsBoolean, hn]
  · intro hne
    simp only [scanRowStep, heval]
    rw [if_pos hne]
  · intro hb hn
    have hf : v.valueAsBoolean = false := by simp [EvalValue.valueAsBoolean, hn]
    simp only [scanRowStep, heval]
    rw [if_neg (by simp [hb]), if_neg (by simp [hf])]
  · intro hb hf
    simp only [scanRowStep, heval]
    rw [if_neg (by simp [hb]), if_neg (by simp [hf])]
  · intro hb ht htr
    simp only [scanRowStep, heval]
    rw [if_neg (by simp [hb]), if_pos ht, if_neg (by simp [htr])]

/-- Claim C6 amended, applied at the null-rooted statement and a fixture
row. -/
theorem c6_root_value_amended_witness :
    scanRowStep treeNullRoot 0 rowTagA (baseState false true) =
      Except.error "Final expression tree evaluation did not result in a boolean value" :=
  (c6_root_value_amended treeNullRoot 0 rowTagA (baseState false true)
    nullUndefinedValue rfl).2.1 (by decide)

/-- Claim C7 (counterexample). A call with no dataset fails, but its
accumulators are not cleared: the dataset check (source line 243) runs before
the clearing (lines 246-248), so the leftover signal ID survives the call. -/
theorem c7_no_dataset_counterexample :
    Evaluate sortImplId [] [] stateNoDataSet =
      Except.error ("Cannot evaluate filter expression, no dataset has been defined",
        stateNoDataSet) ∧
    stateNoDataSet.filteredSignalIDs = [5] ∧
    stateNoDataSet.filteredSignalIDs ≠ [] := by
  refine ⟨rfl, rfl, by decide⟩

/-- Claim C7 (amended). With no dataset, `Evaluate` fails immediately and the
accumulators keep whatever they held before the call (the dataset check
precedes the clearing). With a dataset, the accumulators are cleared on entry,
so the result of the call does not depend on their contents at entry. -/
theorem c7_evaluate_amended (sortImpl : SortImpl) (idStmts : List IdentifierStatement)
    (trees : List ExpressionTree) (st : ParserState) :
    (st.dataSet = none →
      Evaluate sortImpl idStmts trees st =
        Except.error ("Cannot evaluate filter expression, no dataset has been defined",
          st)) ∧
    (∀ ds setv sids rows, st.dataSet = some ds →
      Evaluate sortImpl idStmts trees (withAccumulators st setv sids rows) =
        Evaluate sortImpl idStmts trees st) := by
  refine ⟨?_, ?_⟩
  · intro h
    simp only [Evaluate, h]
  · intro ds setv sids rows h
    have h2 : (withAccumulators st setv sids rows).dataSet = some ds := h
    simp only [Evaluate, h, h2]
    have h3 : clearAccumulators (withAccumulators st setv sids rows) =
        clearAccumulators st := rfl
    rw [h3]

/-- Claim C7 amended, applied at a no-dataset state and at a state whose
leftover accumulators are wiped. -/
theorem c7_evaluate_amended_witness :
    Evaluate sortImplId [] [treeNullRoot] stateNoDataSet =
      Except.error ("Cannot evaluate filter expression, no dataset has been defined",
        stateNoDataSet) ∧
    Evaluate sortImplId [] [] (withAccumulators stateNoTables [5] [5] []) =
      Evaluate sortImplId [] [] stateNoTables :=
  ⟨(c7_evaluate_amended sortImplId [] [treeNullRoot] stateNoDataSet).1 rfl,
   (c7_evaluate_amended sortImplId [] [] stateNoTables).2 ⟨[]⟩ [5] [5] [] rfl⟩

end GSF
